import Mathlib

/-!
Verification development for the kana logistics-analysis scripts.

The repository is a set of pandas batch pipelines.  We give a shallow
embedding: a dataframe is a list of typed row structures, a cell that pandas
may hold as NaN/NaT is an `Option`, numeric cells are exact rationals, and
timestamps are integer epoch seconds.  Model inputs represent column values
after pandas parsing, so `pd.to_numeric(..., errors="coerce")` and
`pd.to_datetime(..., errors="coerce")` are identities on the model (a cell
that failed to parse is already `none`).  String cells are lists of
characters; `.astype(str)` turns a missing cell into the literal "nan",
mirroring pandas.
-/

namespace Kana

/-- String cells are lists of characters. -/
abbrev Str := List Char

/-- Round-trip of `Char.ofNat` on the scalar range used by the case maps. -/
theorem toNat_ofNat_lt (n : ℕ) (h : n < 55296) : (Char.ofNat n).toNat = n := by
  rw [Char.ofNat, dif_pos (Or.inl h)]
  rfl

/-- Model of Python's `str.lower` on one character: ASCII letters and the
Cyrillic letters appearing in the data (А-Я, Ё) are lowered, everything else
is unchanged. -/
def lowerChar (c : Char) : Char :=
  if 65 ≤ c.toNat ∧ c.toNat ≤ 90 then Char.ofNat (c.toNat + 32)
  else if 1040 ≤ c.toNat ∧ c.toNat ≤ 1071 then Char.ofNat (c.toNat + 32)
  else if c.toNat = 1025 then Char.ofNat 1105
  else c

theorem lowerChar_toNat (c : Char) : (lowerChar c).toNat =
    if 65 ≤ c.toNat ∧ c.toNat ≤ 90 then c.toNat + 32
    else if 1040 ≤ c.toNat ∧ c.toNat ≤ 1071 then c.toNat + 32
    else if c.toNat = 1025 then 1105 else c.toNat := by
  unfold lowerChar
  split_ifs with h1 h2 h3
  · exact toNat_ofNat_lt _ (by omega)
  · exact toNat_ofNat_lt _ (by omega)
  · exact toNat_ofNat_lt _ (by omega)
  · rfl

theorem lowerChar_fixed (c : Char) (h1 : ¬(65 ≤ c.toNat ∧ c.toNat ≤ 90))
    (h2 : ¬(1040 ≤ c.toNat ∧ c.toNat ≤ 1071)) (h3 : c.toNat ≠ 1025) :
    lowerChar c = c := by
  unfold lowerChar
  rw [if_neg h1, if_neg h2, if_neg h3]

theorem lowerChar_idem (c : Char) : lowerChar (lowerChar c) = lowerChar c := by
  apply lowerChar_fixed
  · rw [lowerChar_toNat]
    split_ifs <;> omega
  · rw [lowerChar_toNat]
    split_ifs <;> omega
  · rw [lowerChar_toNat]
    split_ifs <;> omega

/-- Model of the whitespace characters stripped by Python's `str.strip`. -/
def isSpaceChar (c : Char) : Bool :=
  c.toNat = 32 || c.toNat = 9 || c.toNat = 10 ||
  c.toNat = 13 || c.toNat = 11 || c.toNat = 12

/-- Model of Python's `str.lower`. -/
def pyLower (s : Str) : Str := s.map lowerChar

/-- Leading-whitespace removal. -/
def stripFront (s : Str) : Str := s.dropWhile isSpaceChar

/-- Trailing-whitespace removal. -/
def stripBack (s : Str) : Str := (s.reverse.dropWhile isSpaceChar).reverse

/-- Model of Python's `str.strip`. -/
def pyStrip (s : Str) : Str := stripBack (stripFront s)

/-- Model of the `_standardize_strings` helper of data_cleaning.py applied to
one cell that is already a string: lower-case, then strip. -/
def pyStandardize (s : Str) : Str := pyStrip (pyLower s)

theorem head?_dropWhile_false {α : Type _} {p : α → Bool} {l : List α} {a : α}
    (h : (l.dropWhile p).head? = some a) : p a = false := by
  have hh := List.head?_dropWhile_not p l
  rw [h] at hh
  exact hh

theorem dropWhile_eq_self_of_head {α : Type _} {p : α → Bool} {l : List α}
    (h : ∀ a, l.head? = some a → p a = false) : l.dropWhile p = l := by
  cases l with
  | nil => rfl
  | cons a t => simp [List.dropWhile_cons, h a rfl]

theorem dropWhile_idem {α : Type _} (p : α → Bool) (l : List α) :
    (l.dropWhile p).dropWhile p = l.dropWhile p :=
  dropWhile_eq_self_of_head (fun _ ha => head?_dropWhile_false ha)

theorem stripFront_idem (s : Str) : stripFront (stripFront s) = stripFront s :=
  dropWhile_idem _ s

theorem stripBack_idem (s : Str) : stripBack (stripBack s) = stripBack s := by
  unfold stripBack
  rw [List.reverse_reverse, dropWhile_idem]

theorem stripFront_stripBack_aux (m : Str)
    (hm : ∀ a, m.head? = some a → isSpaceChar a = false) :
    stripFront (stripBack m) = stripBack m := by
  cases m with
  | nil => rfl
  | cons a t =>
    have ha : isSpaceChar a = false := hm a rfl
    unfold stripBack stripFront
    rw [List.reverse_cons, List.dropWhile_append]
    by_cases he : (t.reverse.dropWhile isSpaceChar).isEmpty = true
    · rw [if_pos he]
      simp [List.dropWhile_cons, ha]
    · rw [if_neg he]
      rw [List.reverse_append]
      simp [List.dropWhile_cons, ha]

theorem pyStrip_idem (s : Str) : pyStrip (pyStrip s) = pyStrip s := by
  unfold pyStrip
  rw [stripFront_stripBack_aux (stripFront s)
    (fun a ha => head?_dropWhile_false ha), stripBack_idem]

theorem mem_pyStrip {a : Char} {s : Str} (h : a ∈ pyStrip s) : a ∈ s := by
  unfold pyStrip stripBack stripFront at h
  rw [List.mem_reverse] at h
  have h2 := (List.dropWhile_sublist _).mem h
  rw [List.mem_reverse] at h2
  exact (List.dropWhile_sublist _).mem h2

theorem pyLower_pyStandardize (s : Str) :
    pyLower (pyStandardize s) = pyStandardize s := by
  apply List.map_congr_left ?_ |>.trans (List.map_id _)
  intro a ha
  have hmem : a ∈ pyLower s := mem_pyStrip ha
  rcases List.mem_map.mp hmem with ⟨b, _, rfl⟩
  exact lowerChar_idem b

theorem pyStandardize_idem (s : Str) :
    pyStandardize (pyStandardize s) = pyStandardize s := by
  show pyStrip (pyLower (pyStandardize s)) = pyStandardize s
  rw [pyLower_pyStandardize]
  show pyStrip (pyStrip (pyLower s)) = _
  rw [pyStrip_idem]
  rfl

/-- What `.astype(str)` produces from a NaN cell. -/
def nanStr : Str := ['n', 'a', 'n']

/-- The `_standardize_strings` helper on one cell: `.astype(str)` then lower
then strip. -/
def stdCell (x : Option Str) : Str := pyStandardize (x.getD nanStr)

theorem stdCell_idem (x : Option Str) : stdCell (some (stdCell x)) = stdCell x :=
  pyStandardize_idem _

/-! Generic table helpers: pandas-style deduplication (keep the first
occurrence), insertion sort (used to model `sort_values` and sorted group
keys), mean, median, linear-interpolation quantile, numpy rounding, clip. -/

/-- Helper for `dropDuplicates`: keeps elements not seen before. -/
def dedupSeen {α : Type _} [DecidableEq α] (seen : List α) : List α → List α
  | [] => []
  | a :: rest =>
    if a ∈ seen then dedupSeen seen rest else a :: dedupSeen (a :: seen) rest

/-- Model of `DataFrame.drop_duplicates()`: keep the first occurrence of each
row. -/
def dropDuplicates {α : Type _} [DecidableEq α] (l : List α) : List α :=
  dedupSeen [] l

theorem dedupSeen_sublist {α : Type _} [DecidableEq α] (seen : List α)
    (l : List α) : (dedupSeen seen l).Sublist l := by
  induction l generalizing seen with
  | nil => exact List.Sublist.refl _
  | cons a rest ih =>
    by_cases h : a ∈ seen
    · rw [dedupSeen, if_pos h]
      exact (ih seen).cons a
    · rw [dedupSeen, if_neg h]
      exact (ih (a :: seen)).cons₂ a

theorem dropDuplicates_sublist {α : Type _} [DecidableEq α] (l : List α) :
    (dropDuplicates l).Sublist l :=
  dedupSeen_sublist [] l

theorem dedupSeen_nodup {α : Type _} [DecidableEq α] (seen : List α)
    (l : List α) :
    (dedupSeen seen l).Nodup ∧ ∀ a ∈ dedupSeen seen l, a ∉ seen := by
  induction l generalizing seen with
  | nil => simp [dedupSeen]
  | cons a rest ih =>
    by_cases h : a ∈ seen
    · rw [dedupSeen, if_pos h]
      exact ih seen
    · rw [dedupSeen, if_neg h]
      refine ⟨List.nodup_cons.mpr ⟨?_, (ih (a :: seen)).1⟩, ?_⟩
      · intro hmem
        exact (ih (a :: seen)).2 a hmem (List.mem_cons_self a seen)
      · intro b hb
        rcases List.mem_cons.mp hb with rfl | hb2
        · exact h
        · intro hbseen
          exact (ih (a :: seen)).2 b hb2 (List.mem_cons_of_mem _ hbseen)

theorem dedupSeen_eq_self {α : Type _} [DecidableEq α] (seen : List α)
    (l : List α) (hn : l.Nodup) (hd : ∀ a ∈ l, a ∉ seen) :
    dedupSeen seen l = l := by
  induction l generalizing seen with
  | nil => rfl
  | cons a rest ih =>
    rw [dedupSeen, if_neg (hd a (List.mem_cons_self a rest))]
    congr 1
    refine ih (a :: seen) (List.nodup_cons.mp hn).2 ?_
    intro b hb hbs
    rcases List.mem_cons.mp hbs with rfl | h2
    · exact (List.nodup_cons.mp hn).1 hb
    · exact hd b (List.mem_cons_of_mem _ hb) h2

theorem dropDuplicates_nodup {α : Type _} [DecidableEq α] (l : List α) :
    (dropDuplicates l).Nodup :=
  (dedupSeen_nodup [] l).1

theorem dropDuplicates_eq_self {α : Type _} [DecidableEq α] (l : List α)
    (hn : l.Nodup) : dropDuplicates l = l :=
  dedupSeen_eq_self [] l hn (by simp)

theorem dropDuplicates_idem {α : Type _} [DecidableEq α] (l : List α) :
    dropDuplicates (dropDuplicates l) = dropDuplicates l :=
  dropDuplicates_eq_self _ (dropDuplicates_nodup l)

/-- Insert into a list already sorted by the strict comparator `lt`, placing
the new element before the first strictly smaller one (descending order). -/
def insertBy {α : Type _} (lt : α → α → Bool) (a : α) : List α → List α
  | [] => [a]
  | b :: l => if lt b a then a :: b :: l else b :: insertBy lt a l

/-- Insertion sort; with comparator `lt x y` meaning x strictly below y it
produces a descending list, modelling `sort_values(..., ascending=False)`. -/
def sortBy {α : Type _} (lt : α → α → Bool) : List α → List α
  | [] => []
  | a :: l => insertBy lt a (sortBy lt l)

theorem mem_insertBy {α : Type _} {lt : α → α → Bool} {a x : α} {l : List α} :
    x ∈ insertBy lt a l ↔ x = a ∨ x ∈ l := by
  induction l with
  | nil => simp [insertBy]
  | cons b t ih =>
    by_cases h : lt b a
    · rw [insertBy, if_pos h]
      simp
    · rw [insertBy, if_neg h]
      simp only [List.mem_cons, ih]
      tauto

theorem mem_sortBy {α : Type _} {lt : α → α → Bool} {x : α} {l : List α} :
    x ∈ sortBy lt l ↔ x ∈ l := by
  induction l with
  | nil => simp [sortBy]
  | cons a t ih =>
    rw [sortBy, mem_insertBy, ih, List.mem_cons]

theorem length_insertBy {α : Type _} (lt : α → α → Bool) (a : α) (l : List α) :
    (insertBy lt a l).length = l.length + 1 := by
  induction l with
  | nil => rfl
  | cons b t ih =>
    by_cases h : lt b a
    · rw [insertBy, if_pos h]
      rfl
    · rw [insertBy, if_neg h]
      simp [ih]

theorem length_sortBy {α : Type _} (lt : α → α → Bool) (l : List α) :
    (sortBy lt l).length = l.length := by
  induction l with
  | nil => rfl
  | cons a t ih =>
    rw [sortBy, length_insertBy, ih]
    rfl

theorem pairwise_insertBy_key {α : Type _} (key : α → ℚ) (a : α) (l : List α)
    (h : l.Pairwise (fun x y => key y ≤ key x)) :
    (insertBy (fun x y => decide (key x < key y)) a l).Pairwise
      (fun x y => key y ≤ key x) := by
  induction l with
  | nil => simp [insertBy]
  | cons b t ih =>
    rw [List.pairwise_cons] at h
    by_cases hc : key b < key a
    · rw [insertBy, if_pos (by simpa using hc)]
      refine List.pairwise_cons.mpr ⟨?_, List.pairwise_cons.mpr ⟨h.1, h.2⟩⟩
      intro z hz
      rcases List.mem_cons.mp hz with rfl | hz2
      · exact le_of_lt hc
      · exact le_trans (h.1 z hz2) (le_of_lt hc)
    · rw [insertBy, if_neg (by simpa using hc)]
      refine List.pairwise_cons.mpr ⟨?_, ih h.2⟩
      intro z hz
      rcases mem_insertBy.mp hz with rfl | hz2
      · exact le_of_not_lt hc
      · exact h.1 z hz2

theorem pairwise_sortBy_key {α : Type _} (key : α → ℚ) (l : List α) :
    (sortBy (fun x y => decide (key x < key y)) l).Pairwise
      (fun x y => key y ≤ key x) := by
  induction l with
  | nil => simp [sortBy]
  | cons a t ih =>
    rw [sortBy]
    exact pairwise_insertBy_key key a _ ih

/-- Ascending sort of rationals (pandas sorts group keys and quantile inputs
ascending). -/
def sortAscQ (l : List ℚ) : List ℚ := sortBy (fun x y => decide (y < x)) l

/-- Ascending sort of integer keys, modelling sorted groupby keys. -/
def sortAscZ (l : List ℤ) : List ℤ := sortBy (fun x y => decide (y < x)) l

/-- Mean as pandas computes it over the non-missing values; NaN (none) on an
empty list. -/
def meanQ (l : List ℚ) : Option ℚ :=
  if l.length = 0 then none else some (l.sum / l.length)

/-- Median as pandas computes it over the non-missing values; NaN (none) on an
empty list, middle element or average of the two middles otherwise. -/
def medianQ (l : List ℚ) : Option ℚ :=
  let s := sortAscQ l
  if s.length = 0 then none
  else if s.length % 2 = 1 then some (s.getD (s.length / 2) 0)
  else some ((s.getD (s.length / 2 - 1) 0 + s.getD (s.length / 2) 0) / 2)

theorem medianQ_eq_none_iff (l : List ℚ) : medianQ l = none ↔ l = [] := by
  unfold medianQ sortAscQ
  have hl : (sortBy (fun x y => decide (y < x)) l).length = l.length :=
    length_sortBy _ l
  constructor
  · intro h
    by_cases hz : (sortBy (fun x y => decide (y < x)) l).length = 0
    · rw [hl] at hz
      exact List.length_eq_zero.mp hz
    · rw [if_neg hz] at h
      by_cases ho : (sortBy (fun x y => decide (y < x)) l).length % 2 = 1 <;>
        simp [ho] at h
  · intro h
    subst h
    rfl

theorem medianQ_isSome (l : List ℚ) (h : l ≠ []) : (medianQ l).isSome := by
  rcases ho : medianQ l with _ | v
  · exact absurd ((medianQ_eq_none_iff l).mp ho) h
  · rfl

/-- Linear-interpolation quantile, as pandas' `Series.quantile` computes it
(position q*(n-1) into the ascending-sorted values). Returns 0 on an empty
list (pandas would return NaN; the scripts only use it on nonempty tables). -/
def quantileQ (l : List ℚ) (q : ℚ) : ℚ :=
  let s := sortAscQ l
  let n := s.length
  if n = 0 then 0
  else
    let pos := q * ((n : ℚ) - 1)
    let i := (Int.floor pos).toNat
    let frac := pos - Int.floor pos
    let lo := s.getD i 0
    let hi := s.getD (min (i + 1) (n - 1)) 0
    lo + frac * (hi - lo)

/-- Round half to even at integer precision, as numpy does. -/
def roundHalfEven (x : ℚ) : ℤ :=
  let f := Int.floor x
  if x - f < 1/2 then f
  else if (1 : ℚ)/2 < x - f then f + 1
  else if f % 2 = 0 then f else f + 1

/-- Numpy/pandas `round(2)`. -/
def round2 (x : ℚ) : ℚ := (roundHalfEven (x * 100) : ℚ) / 100

theorem roundHalfEven_le (x : ℚ) : roundHalfEven x ≤ Int.floor x + 1 := by
  unfold roundHalfEven
  simp only []
  split_ifs <;> omega

theorem le_roundHalfEven (x : ℚ) : Int.floor x ≤ roundHalfEven x := by
  unfold roundHalfEven
  simp only []
  split_ifs <;> omega

/-- Pandas `Series.clip(lo, hi)`. -/
def clipQ (x lo hi : ℚ) : ℚ := min (max x lo) hi

/-- Index of the first minimum of a list of distances; models the cluster
assignment step of KMeans predict (nearest centroid). -/
def minIdx : List ℚ → ℕ
  | [] => 0
  | [_] => 0
  | a :: b :: t =>
    let j := minIdx (b :: t)
    if a ≤ (b :: t).getD j 0 then 0 else j + 1

theorem minIdx_lt_length (l : List ℚ) (h : l ≠ []) : minIdx l < l.length := by
  induction l with
  | nil => exact absurd rfl h
  | cons a t ih =>
    cases t with
    | nil => simp [minIdx]
    | cons b u =>
      rw [minIdx]
      by_cases hc : a ≤ (b :: u).getD (minIdx (b :: u)) 0
      · rw [if_pos hc]
        simp
      · rw [if_neg hc]
        have := ih (by simp)
        simpa using Nat.succ_lt_succ this

theorem map_eq_self_of {α : Type _} {f : α → α} {l : List α}
    (h : ∀ a ∈ l, f a = a) : l.map f = l :=
  (List.map_congr_left h).trans (List.map_id _)

/-! Embedding of data_cleaning.py.  Each dataset has a typed row structure;
the rename maps and the errors="coerce" conversions are identities on the
model (see the header comment). -/

/-- One row of the raw shipments table, as data_cleaning.py sees it after
parsing.  Timestamps are epoch seconds, `none` is NaN/NaT. -/
structure ShipRow where
  ship_date : Option ℤ
  delivery_date : Option ℤ
  weight : Option ℚ
  cost : Option ℚ
  sender : Option Str
  recipient : Option Str
  status : Option Str
  route_id : Option ℤ
  deriving DecidableEq

/-- Model of `df.rename(columns=rename_map, inplace=True)`: renaming
localized headers to the canonical ones is the identity on the typed model. -/
def renameShip (l : List ShipRow) : List ShipRow := l

/-- Model of the `pd.to_datetime(..., errors="coerce")` lines; identity on the
post-parsing model. -/
def coerceShipDates (l : List ShipRow) : List ShipRow := l

/-- Model of the `pd.to_numeric(..., errors="coerce")` loop; identity on the
post-parsing model. -/
def coerceShipNums (l : List ShipRow) : List ShipRow := l

/-- Non-missing values of a selector within one route_id group, as
`df.groupby(group_col)[col]` exposes them; groupby keeps its default
dropna=True, so rows whose route_id is NaN belong to no group. -/
def groupValsShip (rows : List ShipRow) (g : ℤ) (sel : ShipRow → Option ℚ) :
    List ℚ :=
  (rows.filter (fun r => decide (r.route_id = some g))).filterMap sel

/-- One cell of `s.fillna(s.median())`: a present value stays, a missing one
becomes the median of the group's non-missing values (still missing when the
group has none). -/
def impute (v : Option ℚ) (med : List ℚ) : Option ℚ :=
  match v with
  | some w => some w
  | none => medianQ med

theorem impute_eq_self (v : Option ℚ) (med : List ℚ)
    (h : v = none → med = []) : impute v med = v := by
  cases v with
  | some w => rfl
  | none => rw [impute, h rfl]; rfl

theorem impute_eq_none (v : Option ℚ) (med : List ℚ)
    (h : impute v med = none) : v = none ∧ med = [] := by
  cases v with
  | some w => exact absurd h (by simp [impute])
  | none => exact ⟨rfl, (medianQ_eq_none_iff _).mp h⟩

/-- One cell of
`df.groupby("route_id")[col].transform(lambda s: s.fillna(s.median()))`
written back into its column: groupby drops the NaN-key rows, the transform
output is NaN there, and the column assignment overwrites their value with
NaN; a keyed row keeps its value or receives its group's median. -/
def transformCell (rows : List ShipRow) (key : Option ℤ) (v : Option ℚ)
    (sel : ShipRow → Option ℚ) : Option ℚ :=
  match key with
  | none => none
  | some g => impute v (groupValsShip rows g sel)

theorem transformCell_eq_self (rows : List ShipRow) (key : Option ℤ)
    (v : Option ℚ) (sel : ShipRow → Option ℚ)
    (h0 : key = none → v = none)
    (h1 : ∀ g, key = some g → v = none → groupValsShip rows g sel = []) :
    transformCell rows key v sel = v := by
  cases key with
  | none => exact (h0 rfl).symm
  | some g => exact impute_eq_self _ _ (h1 g rfl)

/-- One row after the weight pass of the fill loop. -/
def fillWeightRow (rows : List ShipRow) (r : ShipRow) : ShipRow :=
  { r with
    weight := transformCell rows r.route_id r.weight (fun x => x.weight) }

/-- The weight pass:
`df["weight"] = df.groupby("route_id")["weight"].transform(...)`. -/
def fillWeightCol (rows : List ShipRow) : List ShipRow :=
  rows.map (fillWeightRow rows)

/-- One row after the cost pass of the fill loop. -/
def fillCostRow (rows : List ShipRow) (r : ShipRow) : ShipRow :=
  { r with
    cost := transformCell rows r.route_id r.cost (fun x => x.cost) }

/-- The cost pass. -/
def fillCostCol (rows : List ShipRow) : List ShipRow :=
  rows.map (fillCostRow rows)

/-- Model of `_fill_numeric_by_group_median(df, "route_id",
["weight", "cost"])`: the loop fills weight first, then cost on the already
weight-filled frame. -/
def fillWeightCost (rows : List ShipRow) : List ShipRow :=
  fillCostCol (fillWeightCol rows)

/-- One row after `_standardize_strings` is applied to the sender, recipient
and status columns. -/
def stdShipRow (r : ShipRow) : ShipRow :=
  { r with
    sender := some (stdCell r.sender)
    recipient := some (stdCell r.recipient)
    status := some (stdCell r.status) }

/-- Model of the text-normalization loop of clean_shipments. -/
def stdShipTexts (l : List ShipRow) : List ShipRow := l.map stdShipRow

/-- Model of `clean_shipments`: rename, coerce dates, coerce numerics,
group-median imputation, text normalization, duplicate removal. -/
def clean_shipments (rows : List ShipRow) : List ShipRow :=
  dropDuplicates (stdShipTexts (fillWeightCost
    (coerceShipNums (coerceShipDates (renameShip rows)))))

theorem stdShipRow_idem (r : ShipRow) : stdShipRow (stdShipRow r) = stdShipRow r := by
  unfold stdShipRow
  simp [stdCell_idem]

theorem groupValsShip_eq_nil_iff (rows : List ShipRow) (g : ℤ)
    (sel : ShipRow → Option ℚ) :
    groupValsShip rows g sel = [] ↔
      ∀ x ∈ rows, x.route_id = some g → sel x = none := by
  unfold groupValsShip
  rw [List.filterMap_eq_nil_iff]
  constructor
  · intro h x hx hg
    exact h x (List.mem_filter.mpr ⟨hx, by simpa using hg⟩)
  · intro h x hx
    rcases List.mem_filter.mp hx with ⟨hx1, hx2⟩
    exact h x hx1 (by simpa using hx2)

/-- Refilling changes nothing when every NaN-key row is already nulled in
both columns and every missing keyed weight/cost sits in a group with no
non-missing value at all. -/
def shipGroupsStable (rows : List ShipRow) : Prop :=
  ∀ r ∈ rows,
    (r.route_id = none → r.weight = none ∧ r.cost = none) ∧
    ∀ g, r.route_id = some g →
      (r.weight = none → groupValsShip rows g (fun x => x.weight) = []) ∧
      (r.cost = none → groupValsShip rows g (fun x => x.cost) = [])

theorem fillWeightCol_eq_self (rows : List ShipRow)
    (h : ∀ r ∈ rows, (r.route_id = none → r.weight = none) ∧
      ∀ g, r.route_id = some g → r.weight = none →
        groupValsShip rows g (fun x => x.weight) = []) :
    fillWeightCol rows = rows := by
  unfold fillWeightCol
  apply map_eq_self_of
  intro r hr
  unfold fillWeightRow
  rw [transformCell_eq_self rows r.route_id r.weight _ (h r hr).1 (h r hr).2]

theorem fillCostCol_eq_self (rows : List ShipRow)
    (h : ∀ r ∈ rows, (r.route_id = none → r.cost = none) ∧
      ∀ g, r.route_id = some g → r.cost = none →
        groupValsShip rows g (fun x => x.cost) = []) :
    fillCostCol rows = rows := by
  unfold fillCostCol
  apply map_eq_self_of
  intro r hr
  unfold fillCostRow
  rw [transformCell_eq_self rows r.route_id r.cost _ (h r hr).1 (h r hr).2]

theorem fillWeightCost_eq_self (rows : List ShipRow)
    (h : shipGroupsStable rows) : fillWeightCost rows = rows := by
  unfold fillWeightCost
  rw [fillWeightCol_eq_self rows
      (fun r hr => ⟨fun hn => ((h r hr).1 hn).1,
        fun g hg hwn => ((h r hr).2 g hg).1 hwn⟩),
    fillCostCol_eq_self rows
      (fun r hr => ⟨fun hn => ((h r hr).1 hn).2,
        fun g hg hcn => ((h r hr).2 g hg).2 hcn⟩)]

theorem clean_shipments_members (rows : List ShipRow) (r : ShipRow)
    (h : r ∈ clean_shipments rows) :
    ∃ r0 ∈ fillWeightCost rows, r = stdShipRow r0 := by
  unfold clean_shipments renameShip coerceShipDates coerceShipNums at h
  have h2 := (dropDuplicates_sublist _).mem h
  unfold stdShipTexts at h2
  rcases List.mem_map.mp h2 with ⟨r0, hr0, rfl⟩
  exact ⟨r0, hr0, rfl⟩

theorem fillWeightCost_members (rows : List ShipRow) (r0 : ShipRow)
    (h : r0 ∈ fillWeightCost rows) :
    ∃ r1 ∈ rows,
      r0 = fillCostRow (fillWeightCol rows) (fillWeightRow rows r1) := by
  unfold fillWeightCost fillCostCol at h
  rcases List.mem_map.mp h with ⟨r1w, hr1w, rfl⟩
  unfold fillWeightCol at hr1w
  rcases List.mem_map.mp hr1w with ⟨r1, hr1, rfl⟩
  exact ⟨r1, hr1, rfl⟩

theorem clean_shipments_stable (rows : List ShipRow) :
    shipGroupsStable (clean_shipments rows) := by
  intro r hr
  rcases clean_shipments_members rows r hr with ⟨r0, hr0, rfl⟩
  rcases fillWeightCost_members rows r0 hr0 with ⟨r1, hr1, rfl⟩
  constructor
  · intro hnone
    have h1 : r1.route_id = none := hnone
    constructor
    · show transformCell rows r1.route_id r1.weight (fun x => x.weight) = none
      rw [h1]
      rfl
    · show transformCell (fillWeightCol rows) r1.route_id r1.cost
        (fun x => x.cost) = none
      rw [h1]
      rfl
  · intro g hg1
    have hg : r1.route_id = some g := hg1
    constructor
    · intro hwnone
      have hw2 : transformCell rows r1.route_id r1.weight
          (fun x => x.weight) = none := hwnone
      rw [hg] at hw2
      rcases impute_eq_none _ _ hw2 with ⟨_, hgnil⟩
      rw [groupValsShip_eq_nil_iff]
      intro x hx hxg
      rcases clean_shipments_members rows x hx with ⟨x0, hx0, rfl⟩
      rcases fillWeightCost_members rows x0 hx0 with ⟨x1, hx1, rfl⟩
      have hxg1 : x1.route_id = some g := hxg
      have hx1w : x1.weight = none :=
        (groupValsShip_eq_nil_iff rows g _).mp hgnil x1 hx1 hxg1
      show transformCell rows x1.route_id x1.weight (fun s => s.weight) = none
      rw [hxg1, hx1w]
      show medianQ (groupValsShip rows g (fun s => s.weight)) = none
      rw [medianQ_eq_none_iff]
      exact hgnil
    · intro hcnone
      have hc2 : transformCell (fillWeightCol rows) r1.route_id r1.cost
          (fun x => x.cost) = none := hcnone
      rw [hg] at hc2
      rcases impute_eq_none _ _ hc2 with ⟨_, hgnil⟩
      rw [groupValsShip_eq_nil_iff]
      intro x hx hxg
      rcases clean_shipments_members rows x hx with ⟨x0, hx0, rfl⟩
      rcases fillWeightCost_members rows x0 hx0 with ⟨x1, hx1, rfl⟩
      have hxg1 : x1.route_id = some g := hxg
      have hx1m : fillWeightRow rows x1 ∈ fillWeightCol rows := by
        unfold fillWeightCol
        exact List.mem_map_of_mem _ hx1
      have hx1c : x1.cost = none :=
        (groupValsShip_eq_nil_iff (fillWeightCol rows) g _).mp hgnil
          (fillWeightRow rows x1) hx1m hxg1
      show transformCell (fillWeightCol rows) x1.route_id x1.cost
        (fun s => s.cost) = none
      rw [hxg1, hx1c]
      show medianQ (groupValsShip (fillWeightCol rows) g (fun s => s.cost)) = none
      rw [medianQ_eq_none_iff]
      exact hgnil

theorem clean_shipments_idem (rows : List ShipRow) :
    clean_shipments (clean_shipments rows) = clean_shipments rows := by
  have hfill : fillWeightCost (clean_shipments rows) = clean_shipments rows :=
    fillWeightCost_eq_self _ (clean_shipments_stable rows)
  have hstd : stdShipTexts (clean_shipments rows) = clean_shipments rows := by
    apply map_eq_self_of
    intro r hr
    rcases clean_shipments_members rows r hr with ⟨r0, _, rfl⟩
    exact stdShipRow_idem r0
  have hnd : (clean_shipments rows).Nodup := by
    unfold clean_shipments
    exact dropDuplicates_nodup _
  show dropDuplicates (stdShipTexts (fillWeightCost (clean_shipments rows))) =
    clean_shipments rows
  rw [hfill, hstd]
  exact dropDuplicates_eq_self _ hnd

/-- One row of the raw routes table. -/
structure RouteRow where
  route_id : ℤ
  origin : Option Str
  destination : Option Str
  distance : Option ℚ
  avg_time : Option ℚ
  avg_cost : Option ℚ
  deriving DecidableEq

/-- Rename map of clean_routes; identity on the typed model. -/
def renameRoutes (l : List RouteRow) : List RouteRow := l

/-- Numeric coercions of clean_routes; identity on the post-parsing model. -/
def coerceRouteNums (l : List RouteRow) : List RouteRow := l

/-- Text normalization of one route row (origin and destination). -/
def stdRouteRow (r : RouteRow) : RouteRow :=
  { r with
    origin := some (stdCell r.origin)
    destination := some (stdCell r.destination) }

def stdRouteTexts (l : List RouteRow) : List RouteRow := l.map stdRouteRow

/-- Model of `clean_routes`. -/
def clean_routes (rows : List RouteRow) : List RouteRow :=
  dropDuplicates (stdRouteTexts (coerceRouteNums (renameRoutes rows)))

theorem stdRouteRow_idem (r : RouteRow) :
    stdRouteRow (stdRouteRow r) = stdRouteRow r := by
  unfold stdRouteRow
  simp [stdCell_idem]

theorem clean_routes_members (rows : List RouteRow) (r : RouteRow)
    (h : r ∈ clean_routes rows) : ∃ r0, r = stdRouteRow r0 := by
  unfold clean_routes renameRoutes coerceRouteNums at h
  have h2 := (dropDuplicates_sublist _).mem h
  rcases List.mem_map.mp h2 with ⟨r0, _, rfl⟩
  exact ⟨r0, rfl⟩

theorem clean_routes_idem (rows : List RouteRow) :
    clean_routes (clean_routes rows) = clean_routes rows := by
  have hstd : stdRouteTexts (clean_routes rows) = clean_routes rows := by
    apply map_eq_self_of
    intro r hr
    rcases clean_routes_members rows r hr with ⟨r0, rfl⟩
    exact stdRouteRow_idem r0
  have hnd : (clean_routes rows).Nodup := by
    unfold clean_routes
    exact dropDuplicates_nodup _
  show dropDuplicates (stdRouteTexts (clean_routes rows)) = clean_routes rows
  rw [hstd]
  exact dropDuplicates_eq_self _ hnd

/-- One row of the raw warehouses table. -/
structure WhRow where
  warehouse_id : ℤ
  region : Option Str
  capacity : Option ℚ
  current_fill : Option ℚ
  deriving DecidableEq

/-- Rename map of clean_warehouses; identity on the typed model. -/
def renameWh (l : List WhRow) : List WhRow := l

/-- Numeric coercions of clean_warehouses; identity on the post-parsing
model. -/
def coerceWhNums (l : List WhRow) : List WhRow := l

/-- Text normalization of the region column. -/
def stdWhRow (r : WhRow) : WhRow := { r with region := some (stdCell r.region) }

def stdWhTexts (l : List WhRow) : List WhRow := l.map stdWhRow

/-- Model of the line
`df["current_fill"].fillna(df["current_fill"].median(), inplace=True)`:
the overall median of the non-missing values fills the missing cells. -/
def fillWhRow (med : List ℚ) (r : WhRow) : WhRow :=
  { r with current_fill := impute r.current_fill med }

def fillCurrentFill (rows : List WhRow) : List WhRow :=
  rows.map (fillWhRow (rows.filterMap (fun r => r.current_fill)))

/-- Model of `clean_warehouses`. -/
def clean_warehouses (rows : List WhRow) : List WhRow :=
  dropDuplicates (fillCurrentFill (coerceWhNums (stdWhTexts (renameWh rows))))

theorem stdWhRow_idem (r : WhRow) : stdWhRow (stdWhRow r) = stdWhRow r := by
  unfold stdWhRow
  simp [stdCell_idem]

theorem stdWhRow_fillWhRow (med : List ℚ) (r : WhRow) :
    stdWhRow (fillWhRow med r) = fillWhRow med (stdWhRow r) := rfl

theorem clean_warehouses_members (rows : List WhRow) (r : WhRow)
    (h : r ∈ clean_warehouses rows) :
    ∃ r0 ∈ stdWhTexts rows,
      r = fillWhRow ((stdWhTexts rows).filterMap (fun s => s.current_fill)) r0 := by
  unfold clean_warehouses renameWh coerceWhNums at h
  have h2 := (dropDuplicates_sublist _).mem h
  unfold fillCurrentFill at h2
  rcases List.mem_map.mp h2 with ⟨r0, hr0, rfl⟩
  exact ⟨r0, hr0, rfl⟩

theorem clean_warehouses_fill_vals (rows : List WhRow) (r : WhRow)
    (hr : r ∈ clean_warehouses rows) (hnone : r.current_fill = none) :
    (clean_warehouses rows).filterMap (fun s => s.current_fill) = [] := by
  rcases clean_warehouses_members rows r hr with ⟨r0, _, rfl⟩
  rcases impute_eq_none _ _ hnone with ⟨_, hvals⟩
  rw [List.filterMap_eq_nil_iff]
  intro x hx
  rcases clean_warehouses_members rows x hx with ⟨x0, hx0, rfl⟩
  show impute x0.current_fill _ = none
  have hx0none : x0.current_fill = none := by
    have := List.filterMap_eq_nil_iff.mp hvals x0 hx0
    exact this
  rw [hx0none, hvals]
  rfl

theorem clean_warehouses_idem (rows : List WhRow) :
    clean_warehouses (clean_warehouses rows) = clean_warehouses rows := by
  have hstd : stdWhTexts (clean_warehouses rows) = clean_warehouses rows := by
    apply map_eq_self_of
    intro r hr
    rcases clean_warehouses_members rows r hr with ⟨r0, hr0, rfl⟩
    rcases List.mem_map.mp hr0 with ⟨r1, _, rfl⟩
    rw [stdWhRow_fillWhRow, stdWhRow_idem]
  have hfill : fillCurrentFill (clean_warehouses rows) = clean_warehouses rows := by
    unfold fillCurrentFill
    apply map_eq_self_of
    intro r hr
    unfold fillWhRow
    rw [impute_eq_self _ _ (clean_warehouses_fill_vals rows r hr)]
  have hnd : (clean_warehouses rows).Nodup := by
    unfold clean_warehouses
    exact dropDuplicates_nodup _
  show dropDuplicates (fillCurrentFill (stdWhTexts (clean_warehouses rows))) =
    clean_warehouses rows
  rw [hstd, hfill]
  exact dropDuplicates_eq_self _ hnd

/-- One row of the raw carriers table. -/
structure CarRow where
  carrier_id : ℤ
  name : Option Str
  rating : Option ℚ
  fleet_size : Option ℚ
  reliability : Option ℚ
  deriving DecidableEq

/-- Rename map of clean_carriers; identity on the typed model. -/
def renameCar (l : List CarRow) : List CarRow := l

/-- Numeric coercions of clean_carriers; identity on the post-parsing
model. -/
def coerceCarNums (l : List CarRow) : List CarRow := l

/-- Text normalization of the name column. -/
def stdCarRow (r : CarRow) : CarRow := { r with name := some (stdCell r.name) }

def stdCarTexts (l : List CarRow) : List CarRow := l.map stdCarRow

/-- Model of `clean_carriers`. -/
def clean_carriers (rows : List CarRow) : List CarRow :=
  dropDuplicates (coerceCarNums (stdCarTexts (renameCar rows)))

theorem stdCarRow_idem (r : CarRow) : stdCarRow (stdCarRow r) = stdCarRow r := by
  unfold stdCarRow
  simp [stdCell_idem]

theorem clean_carriers_members (rows : List CarRow) (r : CarRow)
    (h : r ∈ clean_carriers rows) : ∃ r0, r = stdCarRow r0 := by
  unfold clean_carriers renameCar coerceCarNums at h
  have h2 := (dropDuplicates_sublist _).mem h
  rcases List.mem_map.mp h2 with ⟨r0, _, rfl⟩
  exact ⟨r0, rfl⟩

theorem clean_carriers_idem (rows : List CarRow) :
    clean_carriers (clean_carriers rows) = clean_carriers rows := by
  have hstd : stdCarTexts (clean_carriers rows) = clean_carriers rows := by
    apply map_eq_self_of
    intro r hr
    rcases clean_carriers_members rows r hr with ⟨r0, rfl⟩
    exact stdCarRow_idem r0
  have hnd : (clean_carriers rows).Nodup := by
    unfold clean_carriers
    exact dropDuplicates_nodup _
  show dropDuplicates (stdCarTexts (clean_carriers rows)) = clean_carriers rows
  rw [hstd]
  exact dropDuplicates_eq_self _ hnd

/-- One row of the raw delays table. -/
structure DelRow where
  delay_id : ℤ
  route_id : ℤ
  shipment_id : ℤ
  date : Option ℤ
  reason : Option Str
  delay_hours : Option ℚ
  deriving DecidableEq

/-- Rename map of clean_delays; identity on the typed model. -/
def renameDel (l : List DelRow) : List DelRow := l

/-- The `pd.to_datetime(..., errors="coerce")` line of clean_delays; identity
on the post-parsing model. -/
def coerceDelDate (l : List DelRow) : List DelRow := l

/-- Model of `pd.to_numeric(df["delay_hours"], errors="coerce").fillna(0)`. -/
def fillDelRow (r : DelRow) : DelRow :=
  { r with delay_hours := some (r.delay_hours.getD 0) }

def fillDelays (l : List DelRow) : List DelRow := l.map fillDelRow

/-- Text normalization of the reason column. -/
def stdDelRow (r : DelRow) : DelRow := { r with reason := some (stdCell r.reason) }

def stdDelTexts (l : List DelRow) : List DelRow := l.map stdDelRow

/-- Model of `clean_delays`. -/
def clean_delays (rows : List DelRow) : List DelRow :=
  dropDuplicates (stdDelTexts (fillDelays (coerceDelDate (renameDel rows))))

theorem stdDelRow_idem (r : DelRow) : stdDelRow (stdDelRow r) = stdDelRow r := by
  unfold stdDelRow
  simp [stdCell_idem]

theorem stdDelRow_fillDelRow (r : DelRow) :
    stdDelRow (fillDelRow r) = fillDelRow (stdDelRow r) := rfl

theorem fillDelRow_eq_self (r : DelRow) (v : ℚ) (h : r.delay_hours = some v) :
    fillDelRow r = r := by
  unfold fillDelRow
  rw [h]
  show { r with delay_hours := some v } = r
  rw [← h]

theorem clean_delays_members (rows : List DelRow) (r : DelRow)
    (h : r ∈ clean_delays rows) : ∃ r0, r = stdDelRow (fillDelRow r0) := by
  unfold clean_delays renameDel coerceDelDate at h
  have h2 := (dropDuplicates_sublist _).mem h
  rcases List.mem_map.mp h2 with ⟨r1, hr1, rfl⟩
  rcases List.mem_map.mp hr1 with ⟨r0, _, rfl⟩
  exact ⟨r0, rfl⟩

theorem clean_delays_idem (rows : List DelRow) :
    clean_delays (clean_delays rows) = clean_delays rows := by
  have hfill : fillDelays (clean_delays rows) = clean_delays rows := by
    apply map_eq_self_of
    intro r hr
    rcases clean_delays_members rows r hr with ⟨r0, rfl⟩
    exact fillDelRow_eq_self _ ((fillDelRow r0).delay_hours.getD 0) rfl
  have hstd : stdDelTexts (clean_delays rows) = clean_delays rows := by
    apply map_eq_self_of
    intro r hr
    rcases clean_delays_members rows r hr with ⟨r0, rfl⟩
    rw [stdDelRow_fillDelRow, ← stdDelRow_fillDelRow, stdDelRow_idem]
  have hnd : (clean_delays rows).Nodup := by
    unfold clean_delays
    exact dropDuplicates_nodup _
  show dropDuplicates (stdDelTexts (fillDelays (clean_delays rows))) =
    clean_delays rows
  rw [hfill, hstd]
  exact dropDuplicates_eq_self _ hnd

/-! Heap model for the frame effects of the cleaners.  A heap is a list of
frames; a Python variable holding a DataFrame is an index into it;
`df.copy()` allocates a fresh cell at the end; each in-place operation
(rename(inplace=True), column assignment, the in-place group-median fill,
fillna(inplace=True)) updates the cell the local name points at.
`drop_duplicates()` returns a fresh value and the local name is rebound to
it, so it mutates nothing. -/

/-- Apply an in-place dataframe operation to heap cell `i`. -/
def updF {α : Type _} (h : List (List α)) (i : ℕ) (f : List α → List α) :
    List (List α) :=
  h.set i (f (h.getD i []))

theorem updF_append {α : Type _} (h : List (List α)) (v : List α)
    (f : List α → List α) : updF (h ++ [v]) h.length f = h ++ [f v] := by
  unfold updF
  rw [List.getD_append_right _ _ _ _ (le_refl _), Nat.sub_self]
  rw [List.set_append, if_neg (lt_irrefl _), Nat.sub_self]
  rfl

/-- Heap program of `clean_shipments`: copy, then the in-place steps on the
copy, then the returned `drop_duplicates` value. -/
def clean_shipments_prog (h : List (List ShipRow)) (r : ℕ) :
    List (List ShipRow) × List ShipRow :=
  let i := h.length
  let h1 := h ++ [h.getD r []]
  let h2 := updF h1 i renameShip
  let h3 := updF h2 i coerceShipDates
  let h4 := updF h3 i coerceShipNums
  let h5 := updF h4 i fillWeightCost
  let h6 := updF h5 i stdShipTexts
  (h6, dropDuplicates (h6.getD i []))

theorem clean_shipments_prog_spec (h : List (List ShipRow)) (r : ℕ)
    (hr : r < h.length) :
    (clean_shipments_prog h r).1.getD r [] = h.getD r [] ∧
    (clean_shipments_prog h r).2 = clean_shipments (h.getD r []) := by
  unfold clean_shipments_prog
  simp only [updF_append]
  refine ⟨List.getD_append _ _ _ r hr, ?_⟩
  rw [List.getD_append_right _ _ _ _ (le_refl _), Nat.sub_self]
  rfl

/-- Heap program of `clean_routes`. -/
def clean_routes_prog (h : List (List RouteRow)) (r : ℕ) :
    List (List RouteRow) × List RouteRow :=
  let i := h.length
  let h1 := h ++ [h.getD r []]
  let h2 := updF h1 i renameRoutes
  let h3 := updF h2 i coerceRouteNums
  let h4 := updF h3 i stdRouteTexts
  (h4, dropDuplicates (h4.getD i []))

theorem clean_routes_prog_spec (h : List (List RouteRow)) (r : ℕ)
    (hr : r < h.length) :
    (clean_routes_prog h r).1.getD r [] = h.getD r [] ∧
    (clean_routes_prog h r).2 = clean_routes (h.getD r []) := by
  unfold clean_routes_prog
  simp only [updF_append]
  refine ⟨List.getD_append _ _ _ r hr, ?_⟩
  rw [List.getD_append_right _ _ _ _ (le_refl _), Nat.sub_self]
  rfl

/-- Heap program of `clean_warehouses`. -/
def clean_warehouses_prog (h : List (List WhRow)) (r : ℕ) :
    List (List WhRow) × List WhRow :=
  let i := h.length
  let h1 := h ++ [h.getD r []]
  let h2 := updF h1 i renameWh
  let h3 := updF h2 i stdWhTexts
  let h4 := updF h3 i coerceWhNums
  let h5 := updF h4 i fillCurrentFill
  (h5, dropDuplicates (h5.getD i []))

theorem clean_warehouses_prog_spec (h : List (List WhRow)) (r : ℕ)
    (hr : r < h.length) :
    (clean_warehouses_prog h r).1.getD r [] = h.getD r [] ∧
    (clean_warehouses_prog h r).2 = clean_warehouses (h.getD r []) := by
  unfold clean_warehouses_prog
  simp only [updF_append]
  refine ⟨List.getD_append _ _ _ r hr, ?_⟩
  rw [List.getD_append_right _ _ _ _ (le_refl _), Nat.sub_self]
  rfl

/-- Heap program of `clean_carriers`. -/
def clean_carriers_prog (h : List (List CarRow)) (r : ℕ) :
    List (List CarRow) × List CarRow :=
  let i := h.length
  let h1 := h ++ [h.getD r []]
  let h2 := updF h1 i renameCar
  let h3 := updF h2 i stdCarTexts
  let h4 := updF h3 i coerceCarNums
  (h4, dropDuplicates (h4.getD i []))

theorem clean_carriers_prog_spec (h : List (List CarRow)) (r : ℕ)
    (hr : r < h.length) :
    (clean_carriers_prog h r).1.getD r [] = h.getD r [] ∧
    (clean_carriers_prog h r).2 = clean_carriers (h.getD r []) := by
  unfold clean_carriers_prog
  simp only [updF_append]
  refine ⟨List.getD_append _ _ _ r hr, ?_⟩
  rw [List.getD_append_right _ _ _ _ (le_refl _), Nat.sub_self]
  rfl

/-- Heap program of `clean_delays`. -/
def clean_delays_prog (h : List (List DelRow)) (r : ℕ) :
    List (List DelRow) × List DelRow :=
  let i := h.length
  let h1 := h ++ [h.getD r []]
  let h2 := updF h1 i renameDel
  let h3 := updF h2 i coerceDelDate
  let h4 := updF h3 i fillDelays
  let h5 := updF h4 i stdDelTexts
  (h5, dropDuplicates (h5.getD i []))

theorem clean_delays_prog_spec (h : List (List DelRow)) (r : ℕ)
    (hr : r < h.length) :
    (clean_delays_prog h r).1.getD r [] = h.getD r [] ∧
    (clean_delays_prog h r).2 = clean_delays (h.getD r []) := by
  unfold clean_delays_prog
  simp only [updF_append]
  refine ⟨List.getD_append _ _ _ r hr, ?_⟩
  rw [List.getD_append_right _ _ _ _ (le_refl _), Nat.sub_self]
  rfl

/-! Embedding of final_analysis_report.py and the matching pieces of
src/analysis_utils.py.  These scripts read the generated CSVs, which have no
missing cells, and call pd.to_datetime without errors="coerce" (it raises on
bad input), so cells are total here.  Timestamps are epoch seconds. -/

/-- One row of the generated shipments table with its derived columns.  The
derived columns (delay_hours, delivery_days, actual_duration_hours) are
filled by the preparation functions below. -/
structure RShip where
  shipment_id : ℤ
  ship_date : ℤ
  planned_delivery : ℤ
  actual_delivery : ℤ
  weight_kg : ℚ
  cargo_value_rub : ℚ
  route_id : ℤ
  carrier_id : ℤ
  status : String
  delivery_cost : ℚ
  delay_hours : ℚ
  delivery_days : ℤ
  actual_duration_hours : ℚ
  deriving DecidableEq, Inhabited

/-- The derived delay column: actual minus planned delivery in hours, clipped
below at zero (`.clip(lower=0)`). -/
def delayHoursOf (planned actual : ℤ) : ℚ :=
  max (((actual - planned : ℤ) : ℚ) / 3600) 0

/-- One row after the delay lines of `load_and_prepare_data` (delay_hours and
delivery_days; `.dt.days` floor-divides). -/
def prepShipRow (r : RShip) : RShip :=
  { r with
    delay_hours := delayHoursOf r.planned_delivery r.actual_delivery
    delivery_days := Int.fdiv (r.actual_delivery - r.ship_date) 86400 }

/-- Model of the derived-column part of `load_and_prepare_data`. -/
def load_and_prepare_shipments (l : List RShip) : List RShip := l.map prepShipRow

/-- One row after `LogisticsAnalyzer.calculate_delivery_metrics`: actual
duration in hours and the clipped delay column. -/
def calc_delivery_metrics_row (r : RShip) : RShip :=
  { r with
    actual_duration_hours := ((r.actual_delivery - r.ship_date : ℤ) : ℚ) / 3600
    delay_hours := delayHoursOf r.planned_delivery r.actual_delivery }

/-- Model of `LogisticsAnalyzer.calculate_delivery_metrics`. -/
def calculate_delivery_metrics (l : List RShip) : List RShip :=
  l.map calc_delivery_metrics_row

/-- One row of the generated routes table. -/
structure RRoute where
  route_id : ℤ
  start_point : String
  end_point : String
  distance_km : ℚ
  avg_time_hours : ℚ
  avg_cost_rub : ℚ
  deriving DecidableEq, Inhabited

/-- One row of the generated carriers table. -/
structure RCarrier where
  carrier_id : ℤ
  name : String
  avg_rating : ℚ
  fleet_size : ℤ
  reliability_score : ℚ
  deriving DecidableEq, Inhabited

/-- One row of `shipments.merge(routes, on="route_id")`. -/
structure SRJoin where
  s : RShip
  rt : RRoute
  deriving DecidableEq, Inhabited

/-- Inner join on route_id, in pandas key order. -/
def mergeShipRoutes (ships : List RShip) (routes : List RRoute) : List SRJoin :=
  ships.flatMap (fun s =>
    (routes.filter (fun rt => decide (rt.route_id = s.route_id))).map
      (fun rt => ⟨s, rt⟩))

/-- Mean over a nonempty group column (pandas mean). -/
def meanD (l : List ℚ) : ℚ := l.sum / l.length

/-- Max over a group column. -/
def listMaxQ (l : List ℚ) : ℚ := l.foldl max (l.headD 0)

/-- The rows of one route_id group of the merged frame. -/
def groupSR (m : List SRJoin) (g : ℤ) : List SRJoin :=
  m.filter (fun x => decide (x.s.route_id = g))

/-- The aggregated per-route table of `analyze_route_efficiency` with the two
derived columns; `end` is a Lean keyword so the column is named end_point. -/
structure RouteMetric where
  route_id : ℤ
  avg_delay : ℚ
  shipment_count : ℚ
  max_delay : ℚ
  avg_cost : ℚ
  distance : ℚ
  start : String
  end_point : String
  planned_time : ℚ
  cost_per_km : ℚ
  efficiency_score : ℚ
  deriving DecidableEq, Inhabited

/-- One aggregated row: groupby(route_id).agg({mean, count, max, mean, first,
first, first, first}).round(2), then cost_per_km and efficiency_score. -/
def routeMetricOf (m : List SRJoin) (g : ℤ) : RouteMetric :=
  let grp := groupSR m g
  let delays := grp.map (fun x => x.s.delay_hours)
  let avg_delay := round2 (meanD delays)
  let cnt : ℚ := grp.length
  let avg_cost := round2 (meanD (grp.map (fun x => x.s.delivery_cost)))
  let distance := round2 ((grp.headD default).rt.distance_km)
  { route_id := g
    avg_delay := avg_delay
    shipment_count := cnt
    max_delay := round2 (listMaxQ delays)
    avg_cost := avg_cost
    distance := distance
    start := (grp.headD default).rt.start_point
    end_point := (grp.headD default).rt.end_point
    planned_time := round2 ((grp.headD default).rt.avg_time_hours)
    cost_per_km := avg_cost / distance
    efficiency_score := cnt / (avg_delay + 1) }

/-- The sorted distinct group keys of the merged frame (pandas groupby sorts
keys). -/
def srKeys (m : List SRJoin) : List ℤ :=
  sortAscZ (dropDuplicates (m.map (fun x => x.s.route_id)))

/-- Model of `analyze_route_efficiency`: the aggregated route table and the
problematic subset (avg_delay above its 80th percentile OR cost_per_km above
its 80th percentile). -/
def analyze_route_efficiency (ships : List RShip) (routes : List RRoute) :
    List RouteMetric × List RouteMetric :=
  let m := mergeShipRoutes ships routes
  let rm := (srKeys m).map (routeMetricOf m)
  let dq := quantileQ (rm.map (fun r => r.avg_delay)) (4/5)
  let cq := quantileQ (rm.map (fun r => r.cost_per_km)) (4/5)
  (rm, rm.filter (fun r => decide (dq < r.avg_delay) || decide (cq < r.cost_per_km)))

/-- Model of the np.select cluster assignment of
`generate_clustering_insights` (first true condition wins, default "Other"). -/
def clusterOf (ct dt c d : ℚ) : String :=
  if ct ≤ c ∧ dt ≤ d then "High Cost + High Delay"
  else if ct ≤ c ∧ d < dt then "High Cost + Low Delay"
  else if c < ct ∧ dt ≤ d then "Low Cost + High Delay"
  else if c < ct ∧ d < dt then "Low Cost + Low Delay"
  else "Other"

/-- Model of `generate_clustering_insights`: quartile thresholds on avg_cost
and avg_delay, then the cluster label column. -/
def generate_clustering_insights (rm : List RouteMetric) :
    List (RouteMetric × String) :=
  let ct := quantileQ (rm.map (fun r => r.avg_cost)) (3/4)
  let dt := quantileQ (rm.map (fun r => r.avg_delay)) (3/4)
  rm.map (fun r => (r, clusterOf ct dt r.avg_cost r.avg_delay))

/-- One row of `shipments.merge(carriers, on="carrier_id")`. -/
structure SCJoin where
  s : RShip
  c : RCarrier
  deriving DecidableEq, Inhabited

def mergeShipCarriers (ships : List RShip) (carriers : List RCarrier) :
    List SCJoin :=
  ships.flatMap (fun s =>
    (carriers.filter (fun c => decide (c.carrier_id = s.carrier_id))).map
      (fun c => ⟨s, c⟩))

/-- The aggregated per-carrier table of `analyze_carrier_performance`; the
count column keeps its pandas name shipment_id. -/
structure CarrierMetric where
  carrier_id : ℤ
  delay_hours : ℚ
  delivery_cost : ℚ
  shipment_id : ℚ
  name : String
  avg_rating : ℚ
  reliability_score : ℚ
  delay_rate : ℚ
  performance_score : ℚ
  deriving DecidableEq, Inhabited

/-- One aggregated carrier row: the agg/round(2) step, the delay rate
(share of status == "Задержка", fillna(0)), and the weighted performance
score 0.3/0.4/0.3. -/
def carrierMetricOf (m : List SCJoin) (g : ℤ) : CarrierMetric :=
  let grp := m.filter (fun x => decide (x.s.carrier_id = g))
  let delayed := grp.filter (fun x => x.s.status == "Задержка")
  let rate := ((delayed.length : ℚ) / (grp.length : ℚ)) * 100
  let dh := round2 (meanD (grp.map (fun x => x.s.delay_hours)))
  let rel := round2 ((grp.headD default).c.reliability_score)
  { carrier_id := g
    delay_hours := dh
    delivery_cost := round2 (meanD (grp.map (fun x => x.s.delivery_cost)))
    shipment_id := grp.length
    name := (grp.headD default).c.name
    avg_rating := round2 ((grp.headD default).c.avg_rating)
    reliability_score := rel
    delay_rate := rate
    performance_score :=
      rel * (3/10) + (100 - rate) * (4/10) + (10 - clipQ dh 0 10) * (3/10) }

/-- Model of `analyze_carrier_performance`: aggregate per carrier, then
`sort_values("performance_score", ascending=False)`. -/
def analyze_carrier_performance (ships : List RShip) (carriers : List RCarrier) :
    List CarrierMetric :=
  let m := mergeShipCarriers ships carriers
  let keys := sortAscZ (dropDuplicates (m.map (fun x => x.s.carrier_id)))
  sortBy (fun a b => decide (a.performance_score < b.performance_score))
    (keys.map (carrierMetricOf m))

/-! Embedding of advanced_analysis.py.  It reads the cleaned CSVs, whose
numeric cells can still be empty, hence Option cells here. -/

/-- The columns of shipments_clean.csv that `inefficient_routes` uses. -/
structure AShipRec where
  route_id : ℤ
  cost : Option ℚ
  deriving DecidableEq

/-- The columns of delays_clean.csv that `inefficient_routes` uses. -/
structure ADelayRec where
  route_id : ℤ
  delay_hours : Option ℚ
  deriving DecidableEq

/-- One row of the combined per-route aggregate. -/
structure RouteAgg where
  route_id : ℤ
  avg_cost : ℚ
  avg_delay : ℚ
  deriving DecidableEq

/-- `shipments_df.groupby("route_id")["cost"].mean()` at one key. -/
def costAgg (ships : List AShipRec) (g : ℤ) : Option ℚ :=
  meanQ ((ships.filter (fun r => decide (r.route_id = g))).filterMap
    (fun r => r.cost))

/-- `delays_df.groupby("route_id")["delay_hours"].mean()` at one key. -/
def delayAgg (delays : List ADelayRec) (g : ℤ) : Option ℚ :=
  meanQ ((delays.filter (fun r => decide (r.route_id = g))).filterMap
    (fun r => r.delay_hours))

/-- `pd.concat([cost_agg, delay_agg], axis=1).dropna().reset_index()`: the
sorted union of the group keys, keeping the keys where both means exist. -/
def combinedRoutes (ships : List AShipRec) (delays : List ADelayRec) :
    List RouteAgg :=
  (sortAscZ (dropDuplicates
    (ships.map (fun r => r.route_id) ++ delays.map (fun r => r.route_id)))).filterMap
    (fun g =>
      match costAgg ships g, delayAgg delays g with
      | some c, some d => some ⟨g, c, d⟩
      | _, _ => none)

/-- Lexicographic strict below on (avg_cost, avg_delay), for
`sort_values(["avg_cost", "avg_delay"], ascending=False)`. -/
def routeAggBelow (a b : RouteAgg) : Bool :=
  decide (a.avg_cost < b.avg_cost) ||
    (decide (a.avg_cost = b.avg_cost) && decide (a.avg_delay < b.avg_delay))

/-- Model of `inefficient_routes`: keep the routes whose avg_cost AND
avg_delay strictly exceed the respective 75th percentiles, sorted
descending. -/
def inefficient_routes (ships : List AShipRec) (delays : List ADelayRec) :
    List RouteAgg :=
  let comb := combinedRoutes ships delays
  let ct := quantileQ (comb.map (fun r => r.avg_cost)) (3/4)
  let dt := quantileQ (comb.map (fun r => r.avg_delay)) (3/4)
  sortBy routeAggBelow
    (comb.filter (fun r => decide (ct < r.avg_cost) && decide (dt < r.avg_delay)))

/-- The columns of shipments_clean.csv that `hypothesis_testing` uses. -/
structure HShipRec where
  carrier_id : Option ℤ
  ship_date : Option ℤ
  delivery_date : Option ℤ
  deriving DecidableEq

/-- Outcome of `hypothesis_testing`: the summary file is written only in the
tested case. -/
inductive HTOutcome where
  | noColumn
  | skipped
  | tested (decision : String)
  deriving DecidableEq

/-- `dropna(subset=["carrier_id", "ship_date", "delivery_date"])` followed by
the transit_hours computation: carrier id with transit hours. -/
def dropnaTransit (rows : List HShipRec) : List (ℤ × ℚ) :=
  rows.filterMap (fun r =>
    match r.carrier_id, r.ship_date, r.delivery_date with
    | some c, some s, some d => some (c, ((d - s : ℤ) : ℚ) / 3600)
    | _, _, _ => none)

/-- Shipment count of one carrier in the dropna'd frame. -/
def carrierCount (l : List (ℤ × ℚ)) (c : ℤ) : ℕ :=
  (l.filter (fun p => decide (p.1 = c))).length

/-- `value_counts()` order (descending by count) filtered to counts ≥ 30,
as `valid_carriers` is built. -/
def valid_carriers (l : List (ℤ × ℚ)) : List ℤ :=
  ((sortBy (fun a b => decide ((a.2 : ℚ) < (b.2 : ℚ)))
      ((dropDuplicates (l.map (fun p => p.1))).map
        (fun c => (c, carrierCount l c)))).filter
    (fun p => decide (30 ≤ p.2))).map (fun p => p.1)

/-- The per-carrier transit-hour samples handed to scipy (one list per valid
carrier). -/
def htData (rows : List HShipRec) : List (List ℚ) :=
  (valid_carriers (dropnaTransit rows)).map
    (fun c => ((dropnaTransit rows).filter (fun p => decide (p.1 = c))).map
      (fun p => p.2))

/-- Model of `hypothesis_testing`.  The scipy Kruskal-Wallis statistic is an
oracle argument returning (statistic, p-value); the control flow around it is
the code's. -/
def hypothesis_testing (kruskal : List (List ℚ) → ℚ × ℚ)
    (hasCarrierCol : Bool) (rows : List HShipRec) : HTOutcome :=
  if hasCarrierCol = false then HTOutcome.noColumn
  else if (htData rows).length < 2 then HTOutcome.skipped
  else
    HTOutcome.tested
      (if (kruskal (htData rows)).2 < 1/20 then "Reject H0"
        else "Fail to reject H0")

/-! Embedding of route_clustering.py's cluster assignment and of the
data-generator's warehouse table. -/

/-- Squared Euclidean distance on the three standardized features. -/
def dist2 (p q : ℚ × ℚ × ℚ) : ℚ :=
  (p.1 - q.1) ^ 2 + (p.2.1 - q.2.1) ^ 2 + (p.2.2 - q.2.2) ^ 2

/-- Modelled from the library contract of sklearn `KMeans.fit_predict`: the
fitted model has one centroid per cluster and each point is labelled with the
index of its nearest centroid. -/
def kmeansLabel (cents : List (ℚ × ℚ × ℚ)) (p : ℚ × ℚ × ℚ) : ℕ :=
  minIdx (cents.map (dist2 p))

/-- The cluster column of route_clustering.py:
`routes_df["cluster"] = kmeans.fit_predict(scaled_features)`. -/
def route_clustering_labels (cents : List (ℚ × ℚ × ℚ))
    (feats : List (ℚ × ℚ × ℚ)) : List ℕ :=
  feats.map (kmeansLabel cents)

theorem kmeansLabel_lt (cents : List (ℚ × ℚ × ℚ)) (p : ℚ × ℚ × ℚ)
    (h : cents ≠ []) : kmeansLabel cents p < cents.length := by
  unfold kmeansLabel
  have hlen := minIdx_lt_length (cents.map (dist2 p)) (by simpa using h)
  simpa using hlen

/-- The regions of generate_warehouses. -/
def genRegions : List String :=
  ["Москва", "СПБ", "Екатеринбург", "Новосибирск", "Казань",
   "Нижний Новгород", "Челябинск", "Ростов-на-Дону", "Уфа", "Волгоград",
   "Пермь", "Воронеж"]

/-- One generated warehouse row. -/
structure GenWh where
  warehouse_id : ℕ
  region : String
  capacity : ℕ
  current_load : ℤ
  utilization_rate : ℚ
  deriving DecidableEq

/-- Model of `generate_warehouses`.  The np.random draws are oracle
arguments: `cap i` models np.random.randint(1000, 5000) and `factor i` the
np.random.uniform load factor of warehouse i.  Python's int() truncates; the
products here are nonnegative, so it is the floor. -/
def generate_warehouses (cap : ℕ → ℕ) (factor : ℕ → ℚ) : List GenWh :=
  (List.range 12).map (fun k =>
    let i := k + 1
    let c := cap i
    let load := Int.floor ((c : ℚ) * factor i)
    { warehouse_id := i
      region := genRegions.getD k ""
      capacity := c
      current_load := load
      utilization_rate := round2 ((load : ℚ) / (c : ℚ)) })

/-! Model of the file loading paths (claim about fail-fast I/O).  A
filesystem is a pair of oracles: which paths exist and what frame a path
parses to.  pd.read_csv raises FileNotFoundError on a missing path, modelled
as `Except.error`. -/

/-- A filesystem with frames of type α. -/
structure FS (α : Type) where
  has : String → Bool
  read : String → α

/-- Model of `pd.read_csv`. -/
def pdReadCsv {α : Type} (fs : FS α) (p : String) : Except String α :=
  if fs.has p then Except.ok (fs.read p)
  else Except.error ("FileNotFoundError: " ++ p)

/-- Model of data_cleaning.py `_load_csv`: explicit existence check, then
read. -/
def load_csv {α : Type} (fs : FS α) (filename : String) : Except String α :=
  if fs.has ("data/" ++ filename) then Except.ok (fs.read ("data/" ++ filename))
  else Except.error ("data/" ++ filename ++
    " not found. Please ensure the raw data file exists.")

/-- Model of the module-level check of route_clustering.py. -/
def route_clustering_load {α : Type} (fs : FS α) : Except String α :=
  if fs.has "cleaned_data/routes_clean.csv" then
    Except.ok (fs.read "cleaned_data/routes_clean.csv")
  else Except.error "Cleaned routes data not found. Run data_cleaning.py first."

/-- Model of the five pd.read_csv calls of
final_analysis_report.load_and_prepare_data; any missing file propagates as
an uncaught exception. -/
def load_and_prepare_reads {α : Type} (fs : FS α) :
    Except String (α × α × α × α × α) := do
  let s ← pdReadCsv fs "./data/shipments.csv"
  let r ← pdReadCsv fs "./data/routes.csv"
  let c ← pdReadCsv fs "./data/carriers.csv"
  let w ← pdReadCsv fs "./data/warehouses.csv"
  let d ← pdReadCsv fs "./data/delays.csv"
  pure (s, r, c, w, d)

/-- Model of `LogisticsAnalyzer.load_data` with the default data_path: the
whole body is wrapped in try/except, so it never raises; it returns False
after printing when any read fails, True otherwise. -/
def analyzer_load_data {α : Type} (fs : FS α) : Except String Bool :=
  Except.ok (match (do
      let _ ← pdReadCsv fs "data/shipments.csv"
      let _ ← pdReadCsv fs "data/routes.csv"
      let _ ← pdReadCsv fs "data/carriers.csv"
      let _ ← pdReadCsv fs "data/warehouses.csv"
      let _ ← pdReadCsv fs "data/delays.csv"
      pure () : Except String Unit) with
    | Except.ok _ => true
    | Except.error _ => false)

/-! Claim theorems. -/

theorem delayHoursOf_nonneg (p a : ℤ) : 0 ≤ delayHoursOf p a :=
  le_max_right _ _

theorem delayHoursOf_eq_zero (p a : ℤ) (h : a ≤ p) : delayHoursOf p a = 0 := by
  unfold delayHoursOf
  apply max_eq_right
  have h2 : ((a - p : ℤ) : ℚ) ≤ 0 := by
    exact_mod_cast sub_nonpos.mpr h
  rw [div_nonpos_iff]
  right
  exact ⟨h2, by norm_num⟩

theorem delayHoursOf_late (p a : ℤ) (h : p < a) :
    delayHoursOf p a = ((a - p : ℤ) : ℚ) / 3600 := by
  unfold delayHoursOf
  apply max_eq_left
  have h2 : (0 : ℚ) ≤ ((a - p : ℤ) : ℚ) := by
    exact_mod_cast sub_nonneg.mpr (le_of_lt h)
  exact div_nonneg h2 (by norm_num)

theorem impute_isSome (v : Option ℚ) (med : List ℚ)
    (h : v = none → med ≠ []) : (impute v med).isSome := by
  cases v with
  | some w => rfl
  | none => exact medianQ_isSome _ (h rfl)

theorem groupValsShip_fillWeightCol (rows : List ShipRow) (g : ℤ) :
    groupValsShip (fillWeightCol rows) g (fun x => x.cost) =
      groupValsShip rows g (fun x => x.cost) := by
  unfold groupValsShip fillWeightCol
  rw [List.filter_map, List.filterMap_map]
  rfl

/-- Membership in the imputed numeric target columns is total: helper for the
shipments half of the imputation claim. -/
theorem clean_shipments_imputed (rows : List ShipRow)
    (hkey : ∀ r ∈ rows, r.route_id.isSome)
    (hw : ∀ r ∈ rows, ∀ g, r.route_id = some g →
      groupValsShip rows g (fun x => x.weight) ≠ [])
    (hc : ∀ r ∈ rows, ∀ g, r.route_id = some g →
      groupValsShip rows g (fun x => x.cost) ≠ []) :
    ∀ r ∈ clean_shipments rows, r.weight.isSome ∧ r.cost.isSome := by
  intro r hr
  rcases clean_shipments_members rows r hr with ⟨r0, hr0, rfl⟩
  rcases fillWeightCost_members rows r0 hr0 with ⟨r1, hr1, rfl⟩
  rcases Option.isSome_iff_exists.mp (hkey r1 hr1) with ⟨g, hg⟩
  constructor
  · show (transformCell rows r1.route_id r1.weight (fun x => x.weight)).isSome
    rw [hg]
    exact impute_isSome _ _ (fun _ => hw r1 hr1 g hg)
  · show (transformCell (fillWeightCol rows) r1.route_id r1.cost
      (fun x => x.cost)).isSome
    rw [hg]
    show (impute r1.cost
      (groupValsShip (fillWeightCol rows) g (fun x => x.cost))).isSome
    rw [groupValsShip_fillWeightCol]
    exact impute_isSome _ _ (fun _ => hc r1 hr1 g hg)

/-- A row whose route_id is missing belongs to no group, so the transform
writes NaN over both its target columns: helper for the NaN-key part of the
imputation claim. -/
theorem clean_shipments_nankey (rows : List ShipRow) :
    ∀ r ∈ clean_shipments rows, r.route_id = none →
      r.weight = none ∧ r.cost = none := by
  intro r hr hn
  rcases clean_shipments_members rows r hr with ⟨r0, hr0, rfl⟩
  rcases fillWeightCost_members rows r0 hr0 with ⟨r1, hr1, rfl⟩
  have h1 : r1.route_id = none := hn
  constructor
  · show transformCell rows r1.route_id r1.weight (fun x => x.weight) = none
    rw [h1]
    rfl
  · show transformCell (fillWeightCol rows) r1.route_id r1.cost
      (fun x => x.cost) = none
    rw [h1]
    rfl

theorem cf_stdWhTexts (l : List WhRow) :
    (stdWhTexts l).filterMap (fun r => r.current_fill) =
      l.filterMap (fun r => r.current_fill) := by
  unfold stdWhTexts
  rw [List.filterMap_map]
  rfl

/-- Helper for the warehouses half of the imputation claim. -/
theorem clean_warehouses_imputed (rows : List WhRow)
    (h : rows.filterMap (fun r => r.current_fill) ≠ []) :
    ∀ r ∈ clean_warehouses rows, r.current_fill.isSome := by
  intro r hr
  rcases clean_warehouses_members rows r hr with ⟨r0, _, rfl⟩
  show (impute r0.current_fill
    ((stdWhTexts rows).filterMap (fun s => s.current_fill))).isSome
  refine impute_isSome _ _ (fun _ => ?_)
  rw [cf_stdWhTexts]
  exact h

/-- A shipments frame whose single row has a missing weight: its route group
has no non-missing weight, so the group median is NaN and the fill leaves the
cell missing. -/
def c1CexRow : ShipRow :=
  { ship_date := some 0
    delivery_date := some 10
    weight := none
    cost := some 5
    sender := some ['a']
    recipient := some ['b']
    status := some ['c']
    route_id := some 1 }

def c1CexRowNaNKey : ShipRow :=
  { ship_date := some 0
    delivery_date := some 10
    weight := some 3
    cost := some 5
    sender := some ['a']
    recipient := some ['b']
    status := some ['c']
    route_id := none }

/-- Claim C1, counterexample: clean_shipments can leave (and even create)
missing values in the imputed target columns.  On the first input the single
row's weight is missing and its whole route group has no non-missing weight,
so the group median is NaN and the cell stays missing.  On the second input
the row's route_id is missing: pandas groupby drops NaN-key rows, the
transform is NaN there, and the column assignment overwrites the PRESENT
weight and cost with NaN. -/
theorem c1_counterexample :
    (¬ (∀ r ∈ clean_shipments [c1CexRow], r.weight.isSome ∧ r.cost.isSome)) ∧
    (¬ (∀ r ∈ clean_shipments [c1CexRowNaNKey],
      r.weight.isSome ∧ r.cost.isSome)) := by
  constructor
  · decide
  · decide

/-- Claim C1 (amended): after clean_shipments no missing weight or cost
remains provided every row has a non-missing route_id and every row's route
group has at least one non-missing value in that column; rows whose route_id
is missing instead end with BOTH target cells missing (groupby drops NaN
keys, so the transform overwrites their values with NaN, and an all-missing
group keeps its NAs).  After clean_warehouses no missing current_fill remains
provided the column has at least one non-missing value. -/
theorem c1_imputation_no_missing :
    (∀ rows : List ShipRow,
      (∀ r ∈ rows, r.route_id.isSome) →
      (∀ r ∈ rows, ∀ g, r.route_id = some g →
        groupValsShip rows g (fun x => x.weight) ≠ []) →
      (∀ r ∈ rows, ∀ g, r.route_id = some g →
        groupValsShip rows g (fun x => x.cost) ≠ []) →
      ∀ r ∈ clean_shipments rows, r.weight.isSome ∧ r.cost.isSome) ∧
    (∀ rows : List ShipRow, ∀ r ∈ clean_shipments rows,
      r.route_id = none → r.weight = none ∧ r.cost = none) ∧
    (∀ rows : List WhRow,
      rows.filterMap (fun r => r.current_fill) ≠ [] →
      ∀ r ∈ clean_warehouses rows, r.current_fill.isSome) :=
  ⟨clean_shipments_imputed, clean_shipments_nankey, clean_warehouses_imputed⟩

def c1WitRowA : ShipRow :=
  { ship_date := some 0
    delivery_date := some 10
    weight := some 2
    cost := none
    sender := some ['a']
    recipient := some ['b']
    status := some ['c']
    route_id := some 1 }

def c1WitRowB : ShipRow :=
  { ship_date := some 5
    delivery_date := some 20
    weight := none
    cost := some 7
    sender := some ['d']
    recipient := some ['e']
    status := some ['f']
    route_id := some 1 }

def c1WitWh : WhRow :=
  { warehouse_id := 1
    region := some ['m']
    capacity := some 100
    current_fill := some 40 }

/-- Claim C1, witness: a two-row keyed shipments frame where each target
column has a value somewhere in the group, a one-row frame with a missing
route_id whose present weight is overwritten with NaN, and a warehouses frame
with one filled cell; each via the amended theorem. -/
theorem c1_witness :
    (∀ r ∈ clean_shipments [c1WitRowA, c1WitRowB],
      r.weight.isSome ∧ r.cost.isSome) ∧
    ((clean_shipments [c1CexRowNaNKey]).headD c1CexRowNaNKey).weight = none ∧
    (∀ r ∈ clean_warehouses [c1WitWh], r.current_fill.isSome) :=
  ⟨c1_imputation_no_missing.1 [c1WitRowA, c1WitRowB] (by decide) (by decide)
     (by decide),
   (c1_imputation_no_missing.2.1 [c1CexRowNaNKey]
     ((clean_shipments [c1CexRowNaNKey]).headD c1CexRowNaNKey) (by decide)
     (by decide)).1,
   c1_imputation_no_missing.2.2 [c1WitWh] (by decide)⟩

/-- Claim C3: each dataset-specific cleaning function is idempotent; applying
clean_shipments, clean_routes, clean_warehouses, clean_carriers or
clean_delays to its own output returns that output unchanged. -/
theorem c3_cleaners_idempotent :
    (∀ rows : List ShipRow,
      clean_shipments (clean_shipments rows) = clean_shipments rows) ∧
    (∀ rows : List RouteRow,
      clean_routes (clean_routes rows) = clean_routes rows) ∧
    (∀ rows : List WhRow,
      clean_warehouses (clean_warehouses rows) = clean_warehouses rows) ∧
    (∀ rows : List CarRow,
      clean_carriers (clean_carriers rows) = clean_carriers rows) ∧
    (∀ rows : List DelRow,
      clean_delays (clean_delays rows) = clean_delays rows) :=
  ⟨clean_shipments_idem, clean_routes_idem, clean_warehouses_idem,
   clean_carriers_idem, clean_delays_idem⟩

/-- Claim C10: in the heap model each cleaning function leaves the caller's
frame unchanged — every in-place mutation hits only the fresh copy — and the
value it returns is the pure cleaning of the input frame. -/
theorem c10_cleaners_pure :
    (∀ (h : List (List ShipRow)) (r : ℕ), r < h.length →
      (clean_shipments_prog h r).1.getD r [] = h.getD r [] ∧
      (clean_shipments_prog h r).2 = clean_shipments (h.getD r [])) ∧
    (∀ (h : List (List RouteRow)) (r : ℕ), r < h.length →
      (clean_routes_prog h r).1.getD r [] = h.getD r [] ∧
      (clean_routes_prog h r).2 = clean_routes (h.getD r [])) ∧
    (∀ (h : List (List WhRow)) (r : ℕ), r < h.length →
      (clean_warehouses_prog h r).1.getD r [] = h.getD r [] ∧
      (clean_warehouses_prog h r).2 = clean_warehouses (h.getD r [])) ∧
    (∀ (h : List (List CarRow)) (r : ℕ), r < h.length →
      (clean_carriers_prog h r).1.getD r [] = h.getD r [] ∧
      (clean_carriers_prog h r).2 = clean_carriers (h.getD r [])) ∧
    (∀ (h : List (List DelRow)) (r : ℕ), r < h.length →
      (clean_delays_prog h r).1.getD r [] = h.getD r [] ∧
      (clean_delays_prog h r).2 = clean_delays (h.getD r [])) :=
  ⟨clean_shipments_prog_spec, clean_routes_prog_spec,
   clean_warehouses_prog_spec, clean_carriers_prog_spec,
   clean_delays_prog_spec⟩

/-- Claim C10, witness: the theorem applied to concrete one-frame heaps. -/
theorem c10_witness :
    ((clean_shipments_prog [[c1CexRow]] 0).1.getD 0 [] = [c1CexRow] ∧
      (clean_shipments_prog [[c1CexRow]] 0).2 = clean_shipments [c1CexRow]) ∧
    ((clean_routes_prog [[]] 0).1.getD 0 [] = [] ∧
      (clean_routes_prog [[]] 0).2 = clean_routes []) ∧
    ((clean_warehouses_prog [[c1WitWh]] 0).1.getD 0 [] = [c1WitWh] ∧
      (clean_warehouses_prog [[c1WitWh]] 0).2 = clean_warehouses [c1WitWh]) ∧
    ((clean_carriers_prog [[]] 0).1.getD 0 [] = [] ∧
      (clean_carriers_prog [[]] 0).2 = clean_carriers []) ∧
    ((clean_delays_prog [[]] 0).1.getD 0 [] = [] ∧
      (clean_delays_prog [[]] 0).2 = clean_delays []) :=
  ⟨c10_cleaners_pure.1 [[c1CexRow]] 0 (by decide),
   c10_cleaners_pure.2.1 [[]] 0 (by decide),
   c10_cleaners_pure.2.2.1 [[c1WitWh]] 0 (by decide),
   c10_cleaners_pure.2.2.2.1 [[]] 0 (by decide),
   c10_cleaners_pure.2.2.2.2 [[]] 0 (by decide)⟩

/-- Claim C2 (amended): inefficient_routes returns rows of the combined
aggregate whose avg_cost AND avg_delay both strictly exceed their 75th
percentiles, as claimed; the problematic subset of analyze_route_efficiency
is filtered by a DISJUNCTION, so each problematic route strictly exceeds at
least one of the two 80th-percentile thresholds (avg_delay or cost_per_km),
not necessarily both. -/
theorem c2_quantile_filters :
    (∀ (ships : List AShipRec) (delays : List ADelayRec),
      ∀ r ∈ inefficient_routes ships delays,
        r ∈ combinedRoutes ships delays ∧
        quantileQ ((combinedRoutes ships delays).map
          (fun x => x.avg_cost)) (3/4) < r.avg_cost ∧
        quantileQ ((combinedRoutes ships delays).map
          (fun x => x.avg_delay)) (3/4) < r.avg_delay) ∧
    (∀ (ships : List RShip) (routes : List RRoute),
      ∀ r ∈ (analyze_route_efficiency ships routes).2,
        r ∈ (analyze_route_efficiency ships routes).1 ∧
        (quantileQ ((analyze_route_efficiency ships routes).1.map
            (fun x => x.avg_delay)) (4/5) < r.avg_delay ∨
          quantileQ ((analyze_route_efficiency ships routes).1.map
            (fun x => x.cost_per_km)) (4/5) < r.cost_per_km)) := by
  constructor
  · intro ships delays r hr
    unfold inefficient_routes at hr
    rw [mem_sortBy, List.mem_filter] at hr
    rcases hr with ⟨hmem, hcond⟩
    simp only [Bool.and_eq_true, decide_eq_true_eq] at hcond
    exact ⟨hmem, hcond.1, hcond.2⟩
  · intro ships routes r hr
    unfold analyze_route_efficiency at hr ⊢
    rw [List.mem_filter] at hr
    rcases hr with ⟨hmem, hcond⟩
    simp only [Bool.or_eq_true, decide_eq_true_eq] at hcond
    exact ⟨hmem, hcond⟩

def c2Ship (i : ℤ) (act : ℤ) : RShip :=
  { shipment_id := i, ship_date := 0, planned_delivery := 0,
    actual_delivery := act, weight_kg := 1, cargo_value_rub := 1,
    route_id := i, carrier_id := 1, status := "x", delivery_cost := 10,
    delay_hours := 0, delivery_days := 0, actual_duration_hours := 0 }

def c2Route (i : ℤ) : RRoute :=
  { route_id := i, start_point := "a", end_point := "b", distance_km := 1,
    avg_time_hours := 1, avg_cost_rub := 10 }

/-- Five one-shipment routes: only route 5 is delayed (100 h), every route
has the same cost per km. -/
def c2Ships : List RShip :=
  [c2Ship 1 0, c2Ship 2 0, c2Ship 3 0, c2Ship 4 0, c2Ship 5 360000]

def c2Routes : List RRoute :=
  [c2Route 1, c2Route 2, c2Route 3, c2Route 4, c2Route 5]

/-- Claim C2, counterexample: on this input the problematic set of
analyze_route_efficiency is the single route 5, whose avg_delay (100) exceeds
the 80th percentile (20) but whose cost_per_km (10) does NOT exceed its 80th
percentile (10); so not every problematic route strictly exceeds the
threshold in each filtered metric. -/
theorem c2_counterexample :
    ¬ (∀ r ∈ (analyze_route_efficiency (load_and_prepare_shipments c2Ships)
          c2Routes).2,
        quantileQ ((analyze_route_efficiency (load_and_prepare_shipments
          c2Ships) c2Routes).1.map (fun x => x.avg_delay)) (4/5) <
            r.avg_delay ∧
        quantileQ ((analyze_route_efficiency (load_and_prepare_shipments
          c2Ships) c2Routes).1.map (fun x => x.cost_per_km)) (4/5) <
            r.cost_per_km) := by
  with_unfolding_all decide

def c2WitShips : List AShipRec :=
  [⟨1, some 1⟩, ⟨2, some 1⟩, ⟨3, some 1⟩, ⟨4, some 10⟩]

def c2WitDelays : List ADelayRec :=
  [⟨1, some 1⟩, ⟨2, some 1⟩, ⟨3, some 1⟩, ⟨4, some 10⟩]

def c2WitAgg : RouteAgg := ⟨4, 10, 10⟩

def c2CexMetric : RouteMetric :=
  { route_id := 5, avg_delay := 100, shipment_count := 1, max_delay := 100,
    avg_cost := 10, distance := 1, start := "a", end_point := "b",
    planned_time := 1, cost_per_km := 10, efficiency_score := 1/101 }

/-- Claim C2, witness: the theorem applied to concrete inputs on which both
filters select a route. -/
theorem c2_witness :
    (c2WitAgg ∈ combinedRoutes c2WitShips c2WitDelays ∧
      quantileQ ((combinedRoutes c2WitShips c2WitDelays).map
        (fun x => x.avg_cost)) (3/4) < c2WitAgg.avg_cost ∧
      quantileQ ((combinedRoutes c2WitShips c2WitDelays).map
        (fun x => x.avg_delay)) (3/4) < c2WitAgg.avg_delay) ∧
    (c2CexMetric ∈ (analyze_route_efficiency (load_and_prepare_shipments
        c2Ships) c2Routes).1 ∧
      (quantileQ ((analyze_route_efficiency (load_and_prepare_shipments
          c2Ships) c2Routes).1.map (fun x => x.avg_delay)) (4/5) <
            c2CexMetric.avg_delay ∨
        quantileQ ((analyze_route_efficiency (load_and_prepare_shipments
          c2Ships) c2Routes).1.map (fun x => x.cost_per_km)) (4/5) <
            c2CexMetric.cost_per_km)) :=
  ⟨c2_quantile_filters.1 c2WitShips c2WitDelays c2WitAgg
     (by with_unfolding_all decide),
   c2_quantile_filters.2 (load_and_prepare_shipments c2Ships) c2Routes
     c2CexMetric (by with_unfolding_all decide)⟩

/-- Claim C5: hypothesis_testing includes a carrier group only if the carrier
has at least 30 shipments in the dropna'd frame; with fewer than two such
carriers it returns the skipped outcome (message logged, no summary file,
nothing raised — the outcome type has no raising case); otherwise it writes a
tested decision that is "Reject H0" exactly when the oracle p-value is below
0.05. -/
theorem c5_hypothesis_testing :
    (∀ rows : List HShipRec, ∀ c ∈ valid_carriers (dropnaTransit rows),
      30 ≤ carrierCount (dropnaTransit rows) c) ∧
    (∀ (kruskal : List (List ℚ) → ℚ × ℚ) (rows : List HShipRec),
      (valid_carriers (dropnaTransit rows)).length < 2 →
      hypothesis_testing kruskal true rows = HTOutcome.skipped) ∧
    (∀ (kruskal : List (List ℚ) → ℚ × ℚ) (rows : List HShipRec),
      2 ≤ (valid_carriers (dropnaTransit rows)).length →
      (hypothesis_testing kruskal true rows = HTOutcome.tested "Reject H0" ↔
        (kruskal (htData rows)).2 < 1/20)) := by
  refine ⟨?_, ?_, ?_⟩
  · intro rows c hc
    unfold valid_carriers at hc
    rcases List.mem_map.mp hc with ⟨p, hp, rfl⟩
    rcases List.mem_filter.mp hp with ⟨hp1, hp2⟩
    rw [mem_sortBy] at hp1
    rcases List.mem_map.mp hp1 with ⟨c0, _, rfl⟩
    simpa using hp2
  · intro k rows h
    unfold hypothesis_testing
    rw [if_neg (by simp)]
    rw [if_pos (by unfold htData; rw [List.length_map]; exact h)]
  · intro k rows h
    unfold hypothesis_testing
    rw [if_neg (by simp)]
    rw [if_neg (by unfold htData; rw [List.length_map]; omega)]
    constructor
    · intro he
      by_contra hp
      rw [if_neg hp] at he
      simp at he
    · intro hp
      rw [if_pos hp]

def c5WitRows : List HShipRec :=
  List.replicate 30 ⟨some 1, some 0, some 3600⟩ ++
    List.replicate 30 ⟨some 2, some 0, some 7200⟩

set_option maxRecDepth 10000 in
/-- Claim C5, witness: on an empty frame there are no valid carriers and the
step is skipped; on a frame with two 30-shipment carriers the test runs and,
with an oracle p-value of 0, decides "Reject H0"; both via the theorem. -/
theorem c5_witness :
    hypothesis_testing (fun _ => (0, 0)) true [] = HTOutcome.skipped ∧
    (hypothesis_testing (fun _ => (0, 0)) true c5WitRows =
      HTOutcome.tested "Reject H0") ∧
    30 ≤ carrierCount (dropnaTransit c5WitRows) 1 :=
  ⟨c5_hypothesis_testing.2.1 (fun _ => (0, 0)) [] (by decide),
   (c5_hypothesis_testing.2.2 (fun _ => (0, 0)) c5WitRows
      (by with_unfolding_all decide)).mpr (by norm_num),
   c5_hypothesis_testing.1 c5WitRows 1 (by with_unfolding_all decide)⟩

def c6Row : RShip :=
  { shipment_id := 6, ship_date := 0, planned_delivery := 7200,
    actual_delivery := 3600, weight_kg := 1, cargo_value_rub := 1,
    route_id := 1, carrier_id := 1, status := "x", delivery_cost := 1,
    delay_hours := 5, delivery_days := 0, actual_duration_hours := 0 }

/-- Claim C6: in both derivations of the delay column (the report's
load_and_prepare_data and the analyzer's calculate_delivery_metrics) every
row's delay_hours equals actual minus planned delivery in hours clipped at
zero, is never negative, is zero for on-time or early deliveries, and equals
the plain difference for late ones. -/
theorem c6_delay_hours :
    (∀ l : List RShip, ∀ r ∈ load_and_prepare_shipments l,
      r.delay_hours = delayHoursOf r.planned_delivery r.actual_delivery ∧
      0 ≤ r.delay_hours ∧
      (r.actual_delivery ≤ r.planned_delivery → r.delay_hours = 0) ∧
      (r.planned_delivery < r.actual_delivery →
        r.delay_hours =
          ((r.actual_delivery - r.planned_delivery : ℤ) : ℚ) / 3600)) ∧
    (∀ l : List RShip, ∀ r ∈ calculate_delivery_metrics l,
      r.delay_hours = delayHoursOf r.planned_delivery r.actual_delivery ∧
      0 ≤ r.delay_hours ∧
      (r.actual_delivery ≤ r.planned_delivery → r.delay_hours = 0) ∧
      (r.planned_delivery < r.actual_delivery →
        r.delay_hours =
          ((r.actual_delivery - r.planned_delivery : ℤ) : ℚ) / 3600)) := by
  constructor
  · intro l r hr
    unfold load_and_prepare_shipments at hr
    rcases List.mem_map.mp hr with ⟨r0, _, rfl⟩
    exact ⟨rfl, delayHoursOf_nonneg _ _,
      fun h => delayHoursOf_eq_zero _ _ h,
      fun h => delayHoursOf_late _ _ h⟩
  · intro l r hr
    unfold calculate_delivery_metrics at hr
    rcases List.mem_map.mp hr with ⟨r0, _, rfl⟩
    exact ⟨rfl, delayHoursOf_nonneg _ _,
      fun h => delayHoursOf_eq_zero _ _ h,
      fun h => delayHoursOf_late _ _ h⟩

/-- Claim C6, witness: a shipment delivered an hour early gets delay zero in
both pipelines, via the theorem. -/
theorem c6_witness :
    (prepShipRow c6Row).delay_hours = 0 ∧
    (calc_delivery_metrics_row c6Row).delay_hours = 0 :=
  ⟨(c6_delay_hours.1 [c6Row] (prepShipRow c6Row)
      (by simp [load_and_prepare_shipments])).2.2.1 (by decide),
   (c6_delay_hours.2 [c6Row] (calc_delivery_metrics_row c6Row)
      (by simp [calculate_delivery_metrics])).2.2.1 (by decide)⟩

/-- Claim C7: every carrier's performance score equals the fixed weighted sum
0.3 * reliability + 0.4 * (100 - delay rate) + 0.3 * (10 - mean delay hours
clipped to [0, 10]), over the columns of the aggregated table, and the
returned table is ordered by that score in descending order. -/
theorem c7_performance_score :
    ∀ (ships : List RShip) (carriers : List RCarrier),
      (∀ row ∈ analyze_carrier_performance ships carriers,
        row.performance_score =
          3/10 * row.reliability_score + 4/10 * (100 - row.delay_rate) +
            3/10 * (10 - clipQ row.delay_hours 0 10)) ∧
      (analyze_carrier_performance ships carriers).Pairwise
        (fun a b => b.performance_score ≤ a.performance_score) := by
  intro ships carriers
  constructor
  · intro row hrow
    unfold analyze_carrier_performance at hrow
    rw [mem_sortBy] at hrow
    rcases List.mem_map.mp hrow with ⟨g, _, rfl⟩
    show (carrierMetricOf (mergeShipCarriers ships carriers) g).performance_score = _
    unfold carrierMetricOf
    simp only []
    ring
  · unfold analyze_carrier_performance
    exact pairwise_sortBy_key (fun r : CarrierMetric => r.performance_score) _

def c7Ships : List RShip :=
  [{ shipment_id := 1, ship_date := 0, planned_delivery := 0,
     actual_delivery := 0, weight_kg := 1, cargo_value_rub := 1,
     route_id := 1, carrier_id := 1, status := "x", delivery_cost := 10,
     delay_hours := 2, delivery_days := 0, actual_duration_hours := 0 }]

def c7Carriers : List RCarrier :=
  [{ carrier_id := 1, name := "a", avg_rating := 4, fleet_size := 10,
     reliability_score := 1/2 }]

def c7WitRow : CarrierMetric :=
  carrierMetricOf (mergeShipCarriers c7Ships c7Carriers) 1

/-- Claim C7, witness: the theorem applied to a one-carrier table. -/
theorem c7_witness :
    c7WitRow.performance_score =
      3/10 * c7WitRow.reliability_score + 4/10 * (100 - c7WitRow.delay_rate) +
        3/10 * (10 - clipQ c7WitRow.delay_hours 0 10) ∧
    (analyze_carrier_performance c7Ships c7Carriers).Pairwise
      (fun a b => b.performance_score ≤ a.performance_score) :=
  ⟨(c7_performance_score c7Ships c7Carriers).1 c7WitRow
      (List.mem_singleton.mpr rfl),
   (c7_performance_score c7Ships c7Carriers).2⟩

/-- The four labels of generate_clustering_insights. -/
def clusterLabels : List String :=
  ["High Cost + High Delay", "High Cost + Low Delay",
   "Low Cost + High Delay", "Low Cost + Low Delay"]

theorem clusterOf_mem (ct dt c d : ℚ) : clusterOf ct dt c d ∈ clusterLabels := by
  unfold clusterOf clusterLabels
  split_ifs with h1 h2 h3 h4
  · simp
  · simp
  · simp
  · simp
  · exfalso
    rcases le_or_lt ct c with a | a
    · rcases le_or_lt dt d with b | b
      · exact h1 ⟨a, b⟩
      · exact h2 ⟨a, b⟩
    · rcases le_or_lt dt d with b | b
      · exact h3 ⟨a, b⟩
      · exact h4 ⟨a, b⟩

/-- Claim C8: every route gets an existing cluster code: in
generate_clustering_insights the assigned label is always one of the four
quartile labels and never the "Other" default, and a fitted KMeans with three
centroids labels every route with an index in {0, 1, 2}. -/
theorem c8_cluster_labels :
    (∀ rm : List RouteMetric, ∀ x ∈ generate_clustering_insights rm,
      x.2 ∈ clusterLabels ∧ x.2 ≠ "Other") ∧
    (∀ (cents : List (ℚ × ℚ × ℚ)) (feats : List (ℚ × ℚ × ℚ)),
      cents.length = 3 →
      ∀ lab ∈ route_clustering_labels cents feats, lab < 3) := by
  constructor
  · intro rm x hx
    unfold generate_clustering_insights at hx
    rcases List.mem_map.mp hx with ⟨r, _, rfl⟩
    have hmem := clusterOf_mem
      (quantileQ (rm.map (fun s => s.avg_cost)) (3/4))
      (quantileQ (rm.map (fun s => s.avg_delay)) (3/4)) r.avg_cost r.avg_delay
    refine ⟨hmem, fun heq => ?_⟩
    have heq2 : clusterOf
        (quantileQ (rm.map (fun s => s.avg_cost)) (3/4))
        (quantileQ (rm.map (fun s => s.avg_delay)) (3/4))
        r.avg_cost r.avg_delay = "Other" := heq
    rw [heq2] at hmem
    exact absurd hmem (by decide)
  · intro cents feats h3 lab hlab
    unfold route_clustering_labels at hlab
    rcases List.mem_map.mp hlab with ⟨p, _, rfl⟩
    have hlt := kmeansLabel_lt cents p
      (by intro hnil; rw [hnil] at h3; exact absurd h3 (by decide))
    rw [h3] at hlt
    exact hlt

def c8Metric : RouteMetric :=
  { route_id := 1, avg_delay := 2, shipment_count := 1, max_delay := 2,
    avg_cost := 10, distance := 1, start := "a", end_point := "b",
    planned_time := 1, cost_per_km := 10, efficiency_score := 1 }

def c8Cents : List (ℚ × ℚ × ℚ) := [(0, 0, 0), (5, 5, 5), (9, 9, 9)]

/-- Claim C8, witness: the theorem applied to a one-route metrics table and
to a three-centroid labelling of one point. -/
theorem c8_witness :
    ((generate_clustering_insights [c8Metric]).headD (c8Metric, "Other")).2 ∈
      clusterLabels ∧
    kmeansLabel c8Cents (1, 1, 1) < 3 :=
  ⟨(c8_cluster_labels.1 [c8Metric]
      ((generate_clustering_insights [c8Metric]).headD (c8Metric, "Other"))
      (by simp [generate_clustering_insights])).1,
   c8_cluster_labels.2 c8Cents [(1, 1, 1)] rfl (kmeansLabel c8Cents (1, 1, 1))
     (by simp [route_clustering_labels])⟩

theorem roundHalfEven_le_of (y : ℚ) (n : ℤ) (h : y < (n : ℚ)) :
    roundHalfEven y ≤ n := by
  have h2 : Int.floor y < n := Int.floor_lt.mpr h
  have h3 := roundHalfEven_le y
  omega

theorem le_roundHalfEven_of (y : ℚ) (n : ℤ) (h : (n : ℚ) - 1/10 < y) :
    n ≤ roundHalfEven y := by
  rcases le_or_lt n (Int.floor y) with hf | hf
  · have h2 := le_roundHalfEven y
    omega
  · have hge : (n - 1 : ℤ) ≤ Int.floor y := by
      apply Int.le_floor.mpr
      push_cast
      linarith
    have hfl : Int.floor y = n - 1 := by omega
    unfold roundHalfEven
    simp only []
    rw [hfl]
    have hy1 : ¬ (y - ((n - 1 : ℤ) : ℚ) < 1/2) := by
      push_cast
      linarith
    have hy2 : (1 : ℚ)/2 < y - ((n - 1 : ℤ) : ℚ) := by
      push_cast
      linarith
    rw [if_neg hy1, if_pos hy2]
    omega

/-- The rounded utilization of a designated high-load warehouse stays within
[0.85, 0.95] once capacity is at least 1000. -/
theorem util_bounds_high (c : ℕ) (f : ℚ) (hc : 1000 ≤ c)
    (hf1 : 17/20 ≤ f) (hf2 : f < 19/20) :
    17/20 ≤ round2 ((Int.floor ((c : ℚ) * f) : ℚ) / (c : ℚ)) ∧
    round2 ((Int.floor ((c : ℚ) * f) : ℚ) / (c : ℚ)) ≤ 19/20 := by
  have hc0 : (0 : ℚ) < (c : ℚ) := by
    exact_mod_cast Nat.lt_of_lt_of_le (by norm_num) hc
  have hcne : (c : ℚ) ≠ 0 := ne_of_gt hc0
  have hc1000 : (1000 : ℚ) ≤ (c : ℚ) := by exact_mod_cast hc
  have hLle : ((Int.floor ((c : ℚ) * f) : ℚ)) ≤ (c : ℚ) * f := Int.floor_le _
  have hLgt : (c : ℚ) * f - 1 < ((Int.floor ((c : ℚ) * f) : ℚ)) := by
    have h2 := Int.lt_floor_add_one ((c : ℚ) * f)
    linarith
  have hxle : ((Int.floor ((c : ℚ) * f) : ℚ)) / (c : ℚ) ≤ f := by
    rw [div_le_iff₀ hc0]
    linarith [mul_comm (c : ℚ) f]
  have hxgt : f - 1 / (c : ℚ) < ((Int.floor ((c : ℚ) * f) : ℚ)) / (c : ℚ) := by
    rw [lt_div_iff₀ hc0, sub_mul, one_div_mul_cancel hcne]
    linarith [mul_comm (c : ℚ) f]
  have hinv : 1 / (c : ℚ) ≤ 1 / 1000 := by
    apply one_div_le_one_div_of_le
    · norm_num
    · exact hc1000
  unfold round2
  constructor
  · rw [le_div_iff₀ (by norm_num : (0 : ℚ) < 100)]
    have h85 : (85 : ℤ) ≤
        roundHalfEven (((Int.floor ((c : ℚ) * f) : ℚ)) / (c : ℚ) * 100) := by
      apply le_roundHalfEven_of
      push_cast
      linarith
    calc (17 : ℚ)/20 * 100 = ((85 : ℤ) : ℚ) := by norm_num
    _ ≤ _ := by exact_mod_cast h85
  · rw [div_le_iff₀ (by norm_num : (0 : ℚ) < 100)]
    have h95 : roundHalfEven (((Int.floor ((c : ℚ) * f) : ℚ)) / (c : ℚ) * 100) ≤
        (95 : ℤ) := by
      apply roundHalfEven_le_of
      push_cast
      linarith
    calc ((roundHalfEven (((Int.floor ((c : ℚ) * f) : ℚ)) / (c : ℚ) * 100) : ℤ) : ℚ)
        ≤ ((95 : ℤ) : ℚ) := by exact_mod_cast h95
    _ = 19/20 * 100 := by norm_num

/-- Claim C9: generate_warehouses respects its generation parameters: every
row's utilization_rate is current_load over capacity rounded to two decimals,
every row's current_load is the integer part of capacity times its drawn
factor, and the designated high-load warehouses 3, 7 and 9 (whose factor is
drawn from [0.85, 0.95)) end with utilization_rate in [0.85, 0.95]. -/
theorem c9_generate_warehouses :
    ∀ (cap : ℕ → ℕ) (factor : ℕ → ℚ),
      (∀ i, 1000 ≤ cap i ∧ cap i ≤ 4999) →
      (∀ i, (i = 3 ∨ i = 7 ∨ i = 9) → 17/20 ≤ factor i ∧ factor i < 19/20) →
      (∀ i, 1 ≤ i → i ≤ 12 → ¬(i = 3 ∨ i = 7 ∨ i = 9) →
        2/5 ≤ factor i ∧ factor i < 4/5) →
      ∀ w ∈ generate_warehouses cap factor,
        w.utilization_rate =
          round2 ((w.current_load : ℚ) / (w.capacity : ℚ)) ∧
        w.current_load =
          Int.floor ((w.capacity : ℚ) * factor w.warehouse_id) ∧
        ((w.warehouse_id = 3 ∨ w.warehouse_id = 7 ∨ w.warehouse_id = 9) →
          17/20 ≤ w.utilization_rate ∧ w.utilization_rate ≤ 19/20) := by
  intro cap factor hcap hhi _hlo w hw
  unfold generate_warehouses at hw
  rcases List.mem_map.mp hw with ⟨k, _, rfl⟩
  refine ⟨rfl, rfl, ?_⟩
  intro hid
  have hf := hhi (k + 1) hid
  have hb := util_bounds_high (cap (k + 1)) (factor (k + 1))
    (hcap (k + 1)).1 hf.1 hf.2
  exact hb

def c9Cap : ℕ → ℕ := fun _ => 1000

def c9Fac : ℕ → ℚ := fun i => if i = 3 ∨ i = 7 ∨ i = 9 then 9/10 else 1/2

def c9W3 : GenWh :=
  (generate_warehouses c9Cap c9Fac).getD 2 ⟨0, "", 0, 0, 0⟩

/-- Claim C9, witness: with capacity 1000 everywhere and factor 0.9 on the
designated warehouses, warehouse 3 ends in the high-utilization band, via the
theorem. -/
theorem c9_witness :
    17/20 ≤ c9W3.utilization_rate ∧ c9W3.utilization_rate ≤ 19/20 :=
  (c9_generate_warehouses c9Cap c9Fac
    (by intro i; unfold c9Cap; norm_num)
    (by intro i h; unfold c9Fac; rw [if_pos h]; norm_num)
    (by intro i h1 h2 h3; unfold c9Fac; rw [if_neg h3]; norm_num)
    c9W3 (List.mem_map.mpr ⟨2, by decide, rfl⟩)).2.2 (Or.inl rfl)

/-- Claim C4, counterexample: with a filesystem holding no files at all,
LogisticsAnalyzer.load_data returns normally with False instead of raising:
the run is free to continue after the missing input file. -/
theorem c4_counterexample :
    (FS.mk (fun _ => false) (fun _ => ()) : FS Unit).has
        "data/shipments.csv" = false ∧
    analyzer_load_data (FS.mk (fun _ => false) (fun _ => ()) : FS Unit) =
      Except.ok false :=
  ⟨rfl, rfl⟩

/-- Claim C4 (amended): the loaders of data_cleaning.py,
route_clustering.py and final_analysis_report.py are fail-fast — a missing
input file surfaces as an uncaught FileNotFoundError — but
LogisticsAnalyzer.load_data catches every exception, prints it and returns
False, so its run continues after a missing input file. -/
theorem c4_fail_fast :
    (∀ (α : Type) (fs : FS α) (name : String),
      fs.has ("data/" ++ name) = false →
      load_csv fs name = Except.error ("data/" ++ name ++
        " not found. Please ensure the raw data file exists.")) ∧
    (∀ (α : Type) (fs : FS α),
      fs.has "cleaned_data/routes_clean.csv" = false →
      route_clustering_load fs =
        Except.error "Cleaned routes data not found. Run data_cleaning.py first.") ∧
    (∀ (α : Type) (fs : FS α),
      (fs.has "./data/shipments.csv" = false ∨
        fs.has "./data/routes.csv" = false ∨
        fs.has "./data/carriers.csv" = false ∨
        fs.has "./data/warehouses.csv" = false ∨
        fs.has "./data/delays.csv" = false) →
      ∃ m, load_and_prepare_reads fs = Except.error m) ∧
    (∀ (α : Type) (fs : FS α),
      (∃ b, analyzer_load_data fs = Except.ok b) ∧
      (fs.has "data/shipments.csv" = false →
        analyzer_load_data fs = Except.ok false)) := by
  refine ⟨?_, ?_, ?_, ?_⟩
  · intro α fs name h
    unfold load_csv
    rw [if_neg (by rw [h]; simp)]
  · intro α fs h
    unfold route_clustering_load
    rw [if_neg (by rw [h]; simp)]
  · intro α fs h
    unfold load_and_prepare_reads pdReadCsv
    by_cases h1 : fs.has "./data/shipments.csv" <;>
      by_cases h2 : fs.has "./data/routes.csv" <;>
        by_cases h3 : fs.has "./data/carriers.csv" <;>
          by_cases h4 : fs.has "./data/warehouses.csv" <;>
            by_cases h5 : fs.has "./data/delays.csv" <;>
              simp [h1, h2, h3, h4, h5, Except.instMonad, Except.bind] at h ⊢
  · intro α fs
    constructor
    · exact ⟨_, rfl⟩
    · intro h
      unfold analyzer_load_data pdReadCsv
      rw [h]
      simp [Except.instMonad, Except.bind]

/-- Claim C4, witness: the amended theorem applied to the empty
filesystem. -/
theorem c4_witness :
    load_csv (FS.mk (fun _ => false) (fun _ => ()) : FS Unit) "shipments.csv" =
      Except.error
        "data/shipments.csv not found. Please ensure the raw data file exists." ∧
    route_clustering_load (FS.mk (fun _ => false) (fun _ => ()) : FS Unit) =
      Except.error "Cleaned routes data not found. Run data_cleaning.py first." ∧
    (∃ m, load_and_prepare_reads
      (FS.mk (fun _ => false) (fun _ => ()) : FS Unit) = Except.error m) ∧
    analyzer_load_data (FS.mk (fun _ => false) (fun _ => ()) : FS Unit) =
      Except.ok false :=
  ⟨c4_fail_fast.1 Unit (FS.mk (fun _ => false) (fun _ => ())) "shipments.csv" rfl,
   c4_fail_fast.2.1 Unit (FS.mk (fun _ => false) (fun _ => ())) rfl,
   c4_fail_fast.2.2.1 Unit (FS.mk (fun _ => false) (fun _ => ())) (Or.inl rfl),
   (c4_fail_fast.2.2.2 Unit (FS.mk (fun _ => false) (fun _ => ()))).2 rfl⟩

end Kana
